import Mathlib

/-!
# BombGo Duo relay server (`src/server.js`)

A shallow embedding of the Socket.io server: the two module-level registries
(`waitingPlayer`, `games`), the room membership kept by the transport, and one
handler per inbound event.  Every handler is a pure function from the server
state (and the event payload) to the new server state and the list of outbound
emissions, in the order the source performs them.

Conventions of the embedding.

* A socket is identified with its `socket.id`; the `socket` field of the
  waiting entry is therefore not stored separately.
* `Date.now()` and the two `Math.random()` draws of a level completion are
  inputs of the event that consumes them.
* Numeric payload fields that the server only stores and relays (positions,
  velocities, `bombIndex`) are integers; `playerX` is an integer compared with
  400; life counters are integers because `--` is applied without a guard.
* A JavaScript `Map` is an insertion-ordered association list.
-/

namespace BombGo

/-! ## Data model -/

abbrev SocketId := String

abbrev GameId := String

/-- Payload of `find-match`. -/
structure PlayerData where
  nickname : String
  character : String
deriving DecidableEq, Repr

/-- A participant record `{ id, nickname, character }` (lines 31-35, 85-90). -/
structure Player where
  id : SocketId
  nickname : String
  character : String
deriving DecidableEq, Repr

/-- A bomb `{ x, y, vx }` (line 144). -/
structure Bomb where
  x : Int
  y : Int
  vx : Int
deriving DecidableEq, Repr

/-- The mutable record `game.state` (lines 42-58).  A slot of `stars` is
`some b` for a boolean element and `none` for a hole of a sparse array. -/
structure GameState where
  player1Lives : Int
  player2Lives : Int
  player1X : Int
  player1Y : Int
  player1VelX : Int
  player1Anim : String
  player2X : Int
  player2Y : Int
  player2VelX : Int
  player2Anim : String
  currentLevel : Nat
  stars : List (Option Bool)
  bombs : List Bomb
  gameOver : Bool
  winner : Option String
deriving DecidableEq, Repr

/-- A value of the `games` map (lines 38-59). -/
structure Game where
  id : GameId
  player1 : Player
  player2 : Player
  state : GameState
deriving DecidableEq, Repr

/-- Outbound payloads, one constructor per emitted event name. -/
inductive Msg where
  | matchFound (gameId : GameId) (isPlayer1 : Bool)
      (opponentNickname opponentCharacter myCharacter : String)
  | opponentUpdate (x y velX : Int) (anim : String)
  | levelComplete (newLevel : Nat) (bombs : List Bomb)
  | starCollected (starIndex : Nat)
  | gameOver (winner : String) (player1Lives player2Lives : Int)
  | livesUpdate (player1Lives player2Lives bombIndex : Int)
  | opponentDisconnected (winner : String)
deriving DecidableEq, Repr

/-- One `emit` call: the sockets it is delivered to and its payload. -/
structure Emit where
  recipients : List SocketId
  msg : Msg
deriving DecidableEq, Repr

/-- The process-wide state: `waitingPlayer`, `games`, and the rooms of the
transport (room name to member sockets). -/
structure ServerState where
  waitingPlayer : Option Player
  games : List (GameId × Game)
  rooms : List (GameId × List SocketId)
deriving DecidableEq, Repr

/-- The state at process start (lines 15-16). -/
def ServerState.init : ServerState :=
  { waitingPlayer := none, games := [], rooms := [] }

/-! ## `Map` operations -/

/-- `m.get(k)`. -/
def mapGet {β : Type} : List (String × β) → String → Option β
  | [], _ => none
  | (k1, v) :: rest, k => if k1 = k then some v else mapGet rest k

/-- `m.set(k, v)`: replaces the value in place when the key exists, appends
otherwise. -/
def mapSet {β : Type} : List (String × β) → String → β → List (String × β)
  | [], k, v => [(k, v)]
  | (k1, v1) :: rest, k, v =>
    if k1 = k then (k, v) :: rest else (k1, v1) :: mapSet rest k v

/-! ## Rooms of the transport -/

/-- Members of a room; a room nobody joined has none. -/
def roomMembers (rooms : List (GameId × List SocketId)) (room : GameId) : List SocketId :=
  (mapGet rooms room).getD []

/-- `socket.join(room)`. -/
def roomJoin (rooms : List (GameId × List SocketId)) (room : GameId) (sock : SocketId) :
    List (GameId × List SocketId) :=
  if sock ∈ roomMembers rooms room then rooms
  else mapSet rooms room (roomMembers rooms room ++ [sock])

/-- A closing socket leaves every room before its `disconnect` handlers run. -/
def leaveAll (rooms : List (GameId × List SocketId)) (sock : SocketId) :
    List (GameId × List SocketId) :=
  rooms.map fun e => (e.1, e.2.filter fun m => decide (m ≠ sock))

/-- Recipients of `io.to(room).emit`: every member of the room. -/
def ioTo (rooms : List (GameId × List SocketId)) (room : GameId) : List SocketId :=
  roomMembers rooms room

/-- Recipients of `socket.to(room).emit`: the members of the room other than
the sending socket. -/
def socketTo (rooms : List (GameId × List SocketId)) (sock : SocketId) (room : GameId) :
    List SocketId :=
  (roomMembers rooms room).filter fun m => decide (m ≠ sock)

/-! ## Arrays and numbers -/

/-- Assignment `a[i] = v` on an array: in place below the length; at or beyond
it the array grows, the skipped slots being holes.  Keys from `2^32 - 1` on are
not array indices and leave the elements alone. -/
def arraySet (a : List (Option Bool)) (i : Nat) (v : Bool) : List (Option Bool) :=
  if i < a.length then a.set i (some v)
  else if i < 4294967295 then a ++ List.replicate (i - a.length) none ++ [some v]
  else a

/-- The callback `s => s` of `filter`: only the element `true` is kept. -/
def truthy : Option Bool → Bool
  | some true => true
  | _ => false

/-- A result of `Math.random()`: the double `mant * 2^(-exp)`. -/
structure Draw where
  mant : Nat
  exp : Nat
deriving DecidableEq, Repr

/-- The doubles of `[0, 1)`: a significand of at most 53 bits, an exponent no
smaller than that of the least subnormal, and a value below one. -/
def Draw.valid (d : Draw) : Prop :=
  d.mant < 2 ^ 53 ∧ d.exp ≤ 1074 ∧ d.mant < 2 ^ d.exp

instance (d : Draw) : Decidable d.valid := by
  unfold Draw.valid
  exact inferInstance

/-- How many low bits of `n` do not fit a 53-bit significand: the number of
halvings that bring `n` below `2^53`.  The first argument bounds the number of
halvings and is taken to be `n` itself. -/
def excessBits : Nat → Nat → Nat
  | 0, _ => 0
  | fuel + 1, n => if n < 2 ^ 53 then 0 else excessBits fuel (n / 2) + 1

/-- Rounding of a natural number to 53 significant bits, to nearest, ties to
even: the significand rounding of a binary64 operation. -/
def roundToDouble (n : Nat) : Nat :=
  if n < 2 ^ 53 then n
  else
    let s := excessBits n n
    let q := n / 2 ^ s
    let r := n % 2 ^ s
    let half := 2 ^ (s - 1)
    if r < half then q * 2 ^ s
    else if r = half ∧ q % 2 = 0 then q * 2 ^ s
    else (q + 1) * 2 ^ s

/-- The integer `Math.floor(Math.random() * 400)` for the draw `d`: the exact
product `400 * mant * 2^(-exp)` is rounded to a double, then floored. -/
def floorRandom400 (d : Draw) : Nat :=
  roundToDouble (400 * d.mant) / 2 ^ d.exp

/-! ## Session construction and field access -/

/-- The identifier built at line 29. -/
def gameIdOf (now : Nat) : GameId :=
  "game_" ++ toString now

/-- The record stored by `games.set` at lines 38-59. -/
def newGame (gameId : GameId) (player1 player2 : Player) : Game :=
  { id := gameId
    player1 := player1
    player2 := player2
    state :=
      { player1Lives := 3
        player2Lives := 3
        player1X := 100
        player1Y := 450
        player1VelX := 0
        player1Anim := "turn"
        player2X := 700
        player2Y := 450
        player2VelX := 0
        player2Anim := "turn"
        currentLevel := 0
        stars := List.replicate 12 (some true)
        bombs := []
        gameOver := false
        winner := none } }

/-- The value of `playerKey`, or of `isPlayer1`, in the gameplay handlers. -/
inductive PlayerKey where
  | player1
  | player2
deriving DecidableEq, Repr

/-- Lines 108-109 and 164: the slot is chosen by comparing the socket with
`player1` only. -/
def playerKeyOf (game : Game) (sock : SocketId) : PlayerKey :=
  if game.player1.id = sock then PlayerKey.player1 else PlayerKey.player2

/-- The string of a slot, as used for `winner`. -/
def PlayerKey.label : PlayerKey → String
  | PlayerKey.player1 => "player1"
  | PlayerKey.player2 => "player2"

/-- The other slot (line 171). -/
def PlayerKey.other : PlayerKey → PlayerKey
  | PlayerKey.player1 => PlayerKey.player2
  | PlayerKey.player2 => PlayerKey.player1

/-- Read of `state[playerKey + "Lives"]`. -/
def GameState.lives (st : GameState) : PlayerKey → Int
  | PlayerKey.player1 => st.player1Lives
  | PlayerKey.player2 => st.player2Lives

/-- Write of `state[playerKey + "Lives"]`. -/
def GameState.setLives (st : GameState) (key : PlayerKey) (v : Int) : GameState :=
  match key with
  | PlayerKey.player1 => { st with player1Lives := v }
  | PlayerKey.player2 => { st with player2Lives := v }

/-- Lines 112-115: the four position fields of a slot are overwritten. -/
def GameState.setPosition (st : GameState) (key : PlayerKey) (x y velX : Int)
    (anim : String) : GameState :=
  match key with
  | PlayerKey.player1 =>
    { st with player1X := x, player1Y := y, player1VelX := velX, player1Anim := anim }
  | PlayerKey.player2 =>
    { st with player2X := x, player2Y := y, player2VelX := velX, player2Anim := anim }

/-! ## Handlers -/

/-- Handler of `find-match` (lines 24-93). -/
def findMatch (s : ServerState) (sock : SocketId) (playerData : PlayerData) (now : Nat) :
    ServerState × List Emit :=
  let self : Player :=
    { id := sock, nickname := playerData.nickname, character := playerData.character }
  let enqueue : ServerState × List Emit := ({ s with waitingPlayer := some self }, [])
  match s.waitingPlayer with
  | none => enqueue
  | some waiting =>
    if waiting.id ≠ sock then
      let gameId := gameIdOf now
      let player1 := waiting
      let player2 := self
      ({ waitingPlayer := none
         games := mapSet s.games gameId (newGame gameId player1 player2)
         rooms := roomJoin (roomJoin s.rooms gameId player1.id) gameId sock },
        [ { recipients := [player1.id]
            msg := Msg.matchFound gameId true player2.nickname player2.character
              player1.character },
          { recipients := [sock]
            msg := Msg.matchFound gameId false player1.nickname player1.character
              player2.character } ])
    else enqueue

/-- Handler of `cancel-matchmaking` (lines 96-101). -/
def cancelMatchmaking (s : ServerState) (sock : SocketId) : ServerState × List Emit :=
  match s.waitingPlayer with
  | none => (s, [])
  | some waiting =>
    if waiting.id = sock then ({ s with waitingPlayer := none }, []) else (s, [])

/-- Handler of `update-position` (lines 104-124). -/
def updatePosition (s : ServerState) (sock : SocketId) (gameId : GameId)
    (x y velX : Int) (anim : String) : ServerState × List Emit :=
  match mapGet s.games gameId with
  | none => (s, [])
  | some game =>
    let playerKey := playerKeyOf game sock
    let state := game.state.setPosition playerKey x y velX anim
    ({ s with games := mapSet s.games gameId { game with state := state } },
      [ { recipients := socketTo s.rooms sock gameId
          msg := Msg.opponentUpdate x y velX anim } ])

/-- Lines 142-144: the bomb of a completed level; `r1` is the draw of line 142
and `r2` the draw of line 143. -/
def spawnBomb (playerX : Int) (r1 r2 : Draw) : Bomb :=
  { x := if playerX < 400 then 400 + (floorRandom400 r1 : Int) else (floorRandom400 r1 : Int)
    y := 16
    vx := -200 + (floorRandom400 r2 : Int) }

/-- Handler of `collect-star` (lines 127-157). -/
def collectStar (s : ServerState) (_sock : SocketId) (gameId : GameId) (starIndex : Nat)
    (playerX : Int) (r1 r2 : Draw) : ServerState × List Emit :=
  match mapGet s.games gameId with
  | none => (s, [])
  | some game =>
    let stars := arraySet game.state.stars starIndex false
    let activeStars := (stars.filter truthy).length
    if activeStars = 0 then
      let currentLevel := (game.state.currentLevel + 1) % 5
      let bombs := game.state.bombs ++ [spawnBomb playerX r1 r2]
      let state :=
        { game.state with
          currentLevel := currentLevel
          stars := List.replicate 12 (some true)
          bombs := bombs }
      ({ s with games := mapSet s.games gameId { game with state := state } },
        [ { recipients := ioTo s.rooms gameId
            msg := Msg.levelComplete currentLevel bombs } ])
    else
      let state := { game.state with stars := stars }
      ({ s with games := mapSet s.games gameId { game with state := state } },
        [ { recipients := ioTo s.rooms gameId
            msg := Msg.starCollected starIndex } ])

/-- Handler of `hit-bomb` (lines 160-187). -/
def hitBomb (s : ServerState) (sock : SocketId) (gameId : GameId) (bombIndex : Int) :
    ServerState × List Emit :=
  match mapGet s.games gameId with
  | none => (s, [])
  | some game =>
    let playerKey := playerKeyOf game sock
    let decremented := game.state.setLives playerKey (game.state.lives playerKey - 1)
    if decremented.lives playerKey ≤ 0 then
      let winner := playerKey.other.label
      let state := { decremented with gameOver := true, winner := some winner }
      ({ s with games := mapSet s.games gameId { game with state := state } },
        [ { recipients := ioTo s.rooms gameId
            msg := Msg.gameOver winner state.player1Lives state.player2Lives } ])
    else
      ({ s with games := mapSet s.games gameId { game with state := decremented } },
        [ { recipients := ioTo s.rooms gameId
            msg := Msg.livesUpdate decremented.player1Lives decremented.player2Lives
              bombIndex } ])

/-- The test of line 200. -/
def involves (sock : SocketId) (game : Game) : Bool :=
  decide (game.player1.id = sock) || decide (game.player2.id = sock)

/-- Handler of `disconnect` (lines 190-207).  The loop visits every entry of
the map; an entry that names the socket emits one notification and is
deleted. -/
def disconnect (s : ServerState) (sock : SocketId) : ServerState × List Emit :=
  let waitingPlayer :=
    match s.waitingPlayer with
    | none => none
    | some waiting => if waiting.id = sock then none else some waiting
  let rooms := leaveAll s.rooms sock
  let ended := s.games.filter fun e => involves sock e.2
  ({ waitingPlayer := waitingPlayer
     games := s.games.filter fun e => !involves sock e.2
     rooms := rooms },
    ended.map fun e =>
      { recipients := socketTo rooms sock e.1
        msg := Msg.opponentDisconnected
          (if e.2.player1.id = sock then "player2" else "player1") })

/-! ## Event dispatch -/

/-- Inbound events with the socket they arrive on and their payload. -/
inductive Event where
  | findMatch (sock : SocketId) (playerData : PlayerData) (now : Nat)
  | cancelMatchmaking (sock : SocketId)
  | updatePosition (sock : SocketId) (gameId : GameId) (x y velX : Int) (anim : String)
  | collectStar (sock : SocketId) (gameId : GameId) (starIndex : Nat) (playerX : Int)
      (r1 r2 : Draw)
  | hitBomb (sock : SocketId) (gameId : GameId) (bombIndex : Int)
  | disconnect (sock : SocketId)
deriving DecidableEq, Repr

/-- One inbound event, processed to completion. -/
def step (s : ServerState) : Event → ServerState × List Emit
  | Event.findMatch sock playerData now => findMatch s sock playerData now
  | Event.cancelMatchmaking sock => cancelMatchmaking s sock
  | Event.updatePosition sock gameId x y velX anim => updatePosition s sock gameId x y velX anim
  | Event.collectStar sock gameId starIndex playerX r1 r2 =>
    collectStar s sock gameId starIndex playerX r1 r2
  | Event.hitBomb sock gameId bombIndex => hitBomb s sock gameId bombIndex
  | Event.disconnect sock => disconnect s sock

/-- A sequence of inbound events in arrival order; the emissions accumulate. -/
def run (s : ServerState) : List Event → ServerState × List Emit
  | [] => (s, [])
  | e :: rest =>
    let r := step s e
    let r2 := run r.1 rest
    (r2.1, r.2 ++ r2.2)

/-- States the server can be in: those some event sequence leads to from the
state at process start. -/
def Reachable (s : ServerState) : Prop :=
  ∃ events : List Event, (run ServerState.init events).1 = s

/-- The participant record a seek builds from its socket and payload. -/
def playerOf (sock : SocketId) (playerData : PlayerData) : Player :=
  { id := sock, nickname := playerData.nickname, character := playerData.character }

/-! ## Sample inputs -/

def alice : PlayerData := { nickname := "Alice", character := "knight" }

def bob : PlayerData := { nickname := "Bob", character := "mage" }

def carol : PlayerData := { nickname := "Carol", character := "ninja" }

def dave : PlayerData := { nickname := "Dave", character := "robot" }

/-- Socket `x` (Alice) is waiting; no session exists. -/
def aliceWaiting : ServerState :=
  { waitingPlayer := some (playerOf "x" alice), games := [], rooms := [] }

/-- Sockets `c` and `d` were paired when the clock read 5; nobody is waiting. -/
def carolDaveMatched : ServerState :=
  (run ServerState.init [Event.findMatch "c" carol 5, Event.findMatch "d" dave 5]).1

/-- The participant record of a slot. -/
def Game.player (game : Game) : PlayerKey → Player
  | PlayerKey.player1 => game.player1
  | PlayerKey.player2 => game.player2

/-- Sockets `x` (Alice) and `y` (Bob) are in session `game_7`; only star 0 is
left, the level is 4 and one bomb was spawned already. -/
def lastStarState : ServerState :=
  { waitingPlayer := none
    games :=
      [ ("game_7",
          { newGame "game_7" (playerOf "x" alice) (playerOf "y" bob) with
            state :=
              { (newGame "game_7" (playerOf "x" alice) (playerOf "y" bob)).state with
                currentLevel := 4
                stars := some true :: List.replicate 11 (some false)
                bombs := [{ x := 10, y := 16, vx := -3 }] } }) ]
    rooms := [("game_7", ["x", "y"])] }

/-- The session of `lastStarState`. -/
def lastStarGame : Game :=
  (mapGet lastStarState.games "game_7").getD (newGame "game_7" (playerOf "x" alice) (playerOf "y" bob))

/-- The largest double below one, `1 - 2^(-53)`. -/
def drawMax : Draw := { mant := 2 ^ 53 - 1, exp := 53 }

/-- The double `0.5`. -/
def drawHalf : Draw := { mant := 1, exp := 1 }

/-- The session of `carolDaveMatched`, as created. -/
def carolDaveGame : Game :=
  newGame "game_5" (playerOf "c" carol) (playerOf "d" dave)

/-- The events of a match: `update-position`, `collect-star` and `hit-bomb`
events for session `gid` arriving on socket `a` or on socket `b`. -/
def isGameplayOf (gid : GameId) (a b : SocketId) : Event → Bool
  | Event.updatePosition sock g _ _ _ _ =>
    decide (g = gid) && (decide (sock = a) || decide (sock = b))
  | Event.collectStar sock g _ _ _ _ =>
    decide (g = gid) && (decide (sock = a) || decide (sock = b))
  | Event.hitBomb sock g _ => decide (g = gid) && (decide (sock = a) || decide (sock = b))
  | _ => false

/-- Whether an event is a `hit-bomb` of socket `sock` for session `gid`. -/
def isHitBy (gid : GameId) (sock : SocketId) : Event → Bool
  | Event.hitBomb sk g _ => decide (sk = sock) && decide (g = gid)
  | _ => false

/-- How many `hit-bomb` events socket `sock` sent for session `gid`. -/
def hitsBy (gid : GameId) (sock : SocketId) (events : List Event) : Nat :=
  events.countP (isHitBy gid sock)

/-- Whether an outbound payload is a `game-over`. -/
def Msg.isGameOver : Msg → Bool
  | Msg.gameOver _ _ _ => true
  | _ => false

/-- Sockets `a` (Alice) and `b` (Bob) are paired, then `a` reports four hits. -/
def fourHits : List Event :=
  [ Event.findMatch "a" alice 1, Event.findMatch "b" bob 5,
    Event.hitBomb "a" "game_5" 0, Event.hitBomb "a" "game_5" 1,
    Event.hitBomb "a" "game_5" 2, Event.hitBomb "a" "game_5" 3 ]

/-- The session `game_5` once the events of `fourHits` are processed. -/
def fourHitsGame : Game :=
  { newGame "game_5" (playerOf "a" alice) (playerOf "b" bob) with
    state :=
      { (newGame "game_5" (playerOf "a" alice) (playerOf "b" bob)).state with
        player1Lives := -1
        gameOver := true
        winner := some "player2" } }

/-- Sockets `a` and `b` are paired, `b` reports two hits, then `a` reports
three: the game is over, `player2` has won, `b` has one life left. -/
def gameOverTrace : List Event :=
  [ Event.findMatch "a" alice 1, Event.findMatch "b" bob 5,
    Event.hitBomb "b" "game_5" 0, Event.hitBomb "b" "game_5" 1,
    Event.hitBomb "a" "game_5" 2, Event.hitBomb "a" "game_5" 3,
    Event.hitBomb "a" "game_5" 4 ]

/-- The server state once the events of `gameOverTrace` are processed. -/
def gameOverState : ServerState :=
  (run ServerState.init gameOverTrace).1

/-- The session `game_5` of `gameOverState`. -/
def gameOverGame : Game :=
  { newGame "game_5" (playerOf "a" alice) (playerOf "b" bob) with
    state :=
      { (newGame "game_5" (playerOf "a" alice) (playerOf "b" bob)).state with
        player1Lives := 0
        player2Lives := 1
        gameOver := true
        winner := some "player2" } }

/-- While a game is not over both players have at least one life. -/
def LivesInv (game : Game) : Prop :=
  game.state.gameOver = false → 1 ≤ game.state.player1Lives ∧ 1 ≤ game.state.player2Lives

/-- The four position fields of a slot: x, y, velX, anim. -/
def GameState.position (st : GameState) : PlayerKey → Int × Int × Int × String
  | PlayerKey.player1 => (st.player1X, st.player1Y, st.player1VelX, st.player1Anim)
  | PlayerKey.player2 => (st.player2X, st.player2Y, st.player2VelX, st.player2Anim)

/-- Sockets `a` (Alice) and `b` (Bob) are paired in `game_5` and `b` has
reported two hits: `b` has one life left. -/
def bobOneLife : ServerState :=
  (run ServerState.init
    [ Event.findMatch "a" alice 1, Event.findMatch "b" bob 5,
      Event.hitBomb "b" "game_5" 0, Event.hitBomb "b" "game_5" 1 ]).1

/-- The session `game_5` of `bobOneLife`. -/
def bobOneLifeGame : Game :=
  { newGame "game_5" (playerOf "a" alice) (playerOf "b" bob) with
    state :=
      { (newGame "game_5" (playerOf "a" alice) (playerOf "b" bob)).state with
        player2Lives := 1 } }

/-- The session record after a gameplay event that names it: the writes of
lines 112-115 (`update-position`), 131-144 (`collect-star`) and 167-171
(`hit-bomb`).  Other events leave a session record as it is. -/
def gameAfter (game : Game) : Event → Game
  | Event.updatePosition sock _ x y velX anim =>
    { game with state := game.state.setPosition (playerKeyOf game sock) x y velX anim }
  | Event.collectStar _ _ starIndex playerX r1 r2 =>
    if ((arraySet game.state.stars starIndex false).filter truthy).length = 0 then
      { game with
        state :=
          { game.state with
            currentLevel := (game.state.currentLevel + 1) % 5
            stars := List.replicate 12 (some true)
            bombs := game.state.bombs ++ [spawnBomb playerX r1 r2] } }
    else
      { game with state := { game.state with stars := arraySet game.state.stars starIndex false } }
  | Event.hitBomb sock _ _ =>
    if game.state.lives (playerKeyOf game sock) - 1 ≤ 0 then
      { game with
        state :=
          { game.state.setLives (playerKeyOf game sock)
              (game.state.lives (playerKeyOf game sock) - 1) with
            gameOver := true
            winner := some (playerKeyOf game sock).other.label } }
    else
      { game with
        state := game.state.setLives (playerKeyOf game sock)
          (game.state.lives (playerKeyOf game sock) - 1) }
  | _ => game

/-- The session a gameplay event names (`data.gameId`); other events name
none. -/
def Event.gameId? : Event → Option GameId
  | Event.updatePosition _ gameId _ _ _ _ => some gameId
  | Event.collectStar _ gameId _ _ _ _ => some gameId
  | Event.hitBomb _ gameId _ => some gameId
  | _ => none

/-- Whether an event is a `collect-star` whose index, from 12 to 4294967294,
lies beyond the 12 slots and is still an array index: the assignment of line 131
then makes the array longer. -/
def growsStars : Event → Bool
  | Event.collectStar _ _ starIndex _ _ _ =>
    decide (12 ≤ starIndex) && decide (starIndex < 4294967295)
  | _ => false

/-- Whether a gameplay event names a session that is live in state `s`. -/
def targetsLive (s : ServerState) (e : Event) : Bool :=
  match e.gameId? with
  | some gid => (mapGet s.games gid).isSome
  | none => false

/-- Whether, along a sequence of events processed from state `s`, no
`collect-star` with an index from 12 to 4294967294 arrives for a session that is
live at that moment. -/
def collectsWithinSlots : ServerState → List Event → Bool
  | _, [] => true
  | s, e :: rest =>
    !(growsStars e && targetsLive s e) && collectsWithinSlots (step s e).1 rest

/-- Sockets `c` and `d` are paired in `game_5`; `c` then sends a `collect-star`
with the key 4294967295 (not an array index), one with index 12 for the unknown
session `game_6`, and one with index 11. -/
def collectsAroundSlots : List Event :=
  [ Event.findMatch "c" carol 5, Event.findMatch "d" dave 5,
    Event.collectStar "c" "game_5" 4294967295 100 drawMax drawHalf,
    Event.collectStar "c" "game_6" 12 100 drawMax drawHalf,
    Event.collectStar "c" "game_5" 11 100 drawMax drawHalf ]

/-- Sockets `a` and `b` are paired, then `a` sends a `collect-star` with
index 12. -/
def collectTwelve : List Event :=
  [ Event.findMatch "a" alice 1, Event.findMatch "b" bob 5,
    Event.collectStar "a" "game_5" 12 100 drawMax drawHalf ]

/-- A fresh session of `p1` and `p2` whose stars 0, ..., k-1 are collected. -/
def collectedUpTo (gid : GameId) (p1 p2 : Player) (k : Nat) : Game :=
  { newGame gid p1 p2 with
    state :=
      { (newGame gid p1 p2).state with
        stars := List.replicate k (some false) ++ List.replicate (12 - k) (some true) } }

/-- The `collect-star` events for the indices 0, 1, ..., n-1 of session `gid`,
in that order; the event for index `i` arrives on socket `sender i` with
payload `playerX i` and consumes the draws `r1 i` and `r2 i`. -/
def collectsInOrder (gid : GameId) (sender : Nat → SocketId) (playerX : Nat → Int)
    (r1 r2 : Nat → Draw) (n : Nat) : List Event :=
  (List.range n).map fun i => Event.collectStar (sender i) gid i (playerX i) (r1 i) (r2 i)

/-- Whether a socket is a participant of some live session. -/
def inSomeGame (s : ServerState) (sock : SocketId) : Bool :=
  s.games.any fun e => involves sock e.2

/-- Whether, along a sequence of events processed from state `s`, no
`find-match` arrives on a socket that is at that moment a participant of a live
session. -/
def seeksOutsideGames : ServerState → List Event → Bool
  | _, [] => true
  | s, e :: rest =>
    (match e with
      | Event.findMatch sock _ _ => !inSomeGame s sock
      | _ => true) && seeksOutsideGames (step s e).1 rest

/-- Sockets `a` and `b` are paired in `game_5`, then `a` seeks again. -/
def seekWhilePlaying : List Event :=
  [ Event.findMatch "a" alice 1, Event.findMatch "b" bob 5, Event.findMatch "a" alice 9 ]

/-- Sockets `a` and `b` are paired in `game_5`, then socket `c` seeks. -/
def seekBesideGame : List Event :=
  [ Event.findMatch "a" alice 1, Event.findMatch "b" bob 5, Event.findMatch "c" carol 9 ]

/-- Sockets `c` and `d` are paired while the clock reads 7 and `c` reports a
hit; socket `x` (Alice) then seeks, the clock still reading 7. -/
def aliceWaitingBesideGame : ServerState :=
  (run ServerState.init
    [ Event.findMatch "c" carol 7, Event.findMatch "d" dave 7,
      Event.hitBomb "c" "game_7" 0, Event.findMatch "x" alice 7 ]).1

/-- The session `game_7` of `aliceWaitingBesideGame`. -/
def carolDaveAfterHit : Game :=
  { newGame "game_7" (playerOf "c" carol) (playerOf "d" dave) with
    state :=
      { (newGame "game_7" (playerOf "c" carol) (playerOf "d" dave)).state with
        player1Lives := 2 } }

/-- Sockets `c` and `d`, then `a` and `b`, are paired while the clock reads 5:
the second pairing reuses the id `game_5` and its room. -/
def twoPairsOneId : ServerState :=
  (run ServerState.init
    [ Event.findMatch "c" carol 5, Event.findMatch "d" dave 5,
      Event.findMatch "a" alice 5, Event.findMatch "b" bob 5 ]).1

/-! ## Lemmas on maps and runs -/

theorem mapGet_mapSet_self {β : Type} (m : List (String × β)) (k : String) (v : β) :
    mapGet (mapSet m k v) k = some v := by
  induction m with
  | nil => simp [mapSet, mapGet]
  | cons e rest ih =>
    obtain ⟨k1, v1⟩ := e
    by_cases h : k1 = k
    · simp [mapSet, mapGet, h]
    · simp [mapSet, mapGet, h, ih]

theorem mapGet_mapSet_ne {β : Type} (m : List (String × β)) (k k2 : String) (v : β)
    (hne : k2 ≠ k) : mapGet (mapSet m k v) k2 = mapGet m k2 := by
  induction m with
  | nil => simp [mapSet, mapGet, Ne.symm hne]
  | cons e rest ih =>
    obtain ⟨k1, v1⟩ := e
    by_cases h : k1 = k
    · subst h
      simp [mapSet, mapGet, Ne.symm hne]
    · by_cases h2 : k1 = k2
      · subst h2
        simp [mapSet, mapGet, h]
      · simp [mapSet, mapGet, h, h2, ih]

theorem mapSet_length_of_absent {β : Type} (m : List (String × β)) (k : String) (v : β)
    (habs : mapGet m k = none) : (mapSet m k v).length = m.length + 1 := by
  induction m with
  | nil => simp [mapSet]
  | cons e rest ih =>
    obtain ⟨k1, v1⟩ := e
    by_cases h : k1 = k
    · simp [mapGet, h] at habs
    · simp only [mapGet, h, if_false] at habs
      simp [mapSet, h, ih habs]

theorem mapSet_length_of_present {β : Type} (m : List (String × β)) (k : String) (v w : β)
    (hpres : mapGet m k = some w) : (mapSet m k v).length = m.length := by
  induction m with
  | nil => simp [mapGet] at hpres
  | cons e rest ih =>
    obtain ⟨k1, v1⟩ := e
    by_cases h : k1 = k
    · simp [mapSet, h]
    · simp only [mapGet, h, if_false] at hpres
      simp [mapSet, h, ih hpres]

theorem run_nil (s : ServerState) : run s [] = (s, []) := rfl

theorem run_cons (s : ServerState) (e : Event) (rest : List Event) :
    run s (e :: rest) = ((run (step s e).1 rest).1, (step s e).2 ++ (run (step s e).1 rest).2) :=
  rfl

theorem run_append (s : ServerState) (xs ys : List Event) :
    run s (xs ++ ys) =
      ((run (run s xs).1 ys).1, (run s xs).2 ++ (run (run s xs).1 ys).2) := by
  induction xs generalizing s with
  | nil => simp [run_nil]
  | cons e rest ih => simp [run_cons, ih, List.append_assoc]

theorem run_snoc_state (s : ServerState) (xs : List Event) (e : Event) :
    (run s (xs ++ [e])).1 = (step (run s xs).1 e).1 := by
  simp [run_append, run_cons, run_nil]

theorem mapSet_of_absent {β : Type} (m : List (String × β)) (k : String) (v : β)
    (habs : mapGet m k = none) : mapSet m k v = m ++ [(k, v)] := by
  induction m with
  | nil => simp [mapSet]
  | cons e rest ih =>
    obtain ⟨k1, v1⟩ := e
    by_cases h : k1 = k
    · simp [mapGet, h] at habs
    · simp only [mapGet, h, if_false] at habs
      simp [mapSet, h, ih habs]

/-! ## Matchmaking -/

theorem findMatch_of_none (s : ServerState) (sock : SocketId) (pd : PlayerData) (now : Nat)
    (hwait : s.waitingPlayer = none) :
    findMatch s sock pd now = ({ s with waitingPlayer := some (playerOf sock pd) }, []) := by
  simp [findMatch, hwait, playerOf]

theorem findMatch_of_other (s : ServerState) (w : Player) (sock : SocketId) (pd : PlayerData)
    (now : Nat) (hwait : s.waitingPlayer = some w) (hne : w.id ≠ sock) :
    findMatch s sock pd now =
      ({ waitingPlayer := none
         games := mapSet s.games (gameIdOf now) (newGame (gameIdOf now) w (playerOf sock pd))
         rooms := roomJoin (roomJoin s.rooms (gameIdOf now) w.id) (gameIdOf now) sock },
        [ { recipients := [w.id]
            msg := Msg.matchFound (gameIdOf now) true pd.nickname pd.character w.character },
          { recipients := [sock]
            msg := Msg.matchFound (gameIdOf now) false w.nickname w.character pd.character } ]) := by
  simp [findMatch, hwait, hne, playerOf]

theorem findMatch_of_self (s : ServerState) (w : Player) (pd : PlayerData)
    (now : Nat) (hwait : s.waitingPlayer = some w) :
    findMatch s w.id pd now = ({ s with waitingPlayer := some (playerOf w.id pd) }, []) := by
  simp [findMatch, hwait, playerOf]

/-- Two seeks by distinct sockets from a state with no waiting entry, when the
identifier built at the second seek is not yet a key of `games`: the store gains
exactly one entry, the session of the two seekers, and nobody is waiting. -/
theorem seek_seek_of_fresh_id (s : ServerState) (a b : SocketId) (pa pb : PlayerData)
    (t1 t2 : Nat) (hwait : s.waitingPlayer = none) (hab : a ≠ b)
    (hfresh : mapGet s.games (gameIdOf t2) = none) :
    (run s [Event.findMatch a pa t1, Event.findMatch b pb t2]).1.waitingPlayer = none ∧
    (run s [Event.findMatch a pa t1, Event.findMatch b pb t2]).1.games =
      s.games ++ [(gameIdOf t2, newGame (gameIdOf t2) (playerOf a pa) (playerOf b pb))] := by
  have h1 := findMatch_of_none s a pa t1 hwait
  have h2 := findMatch_of_other { s with waitingPlayer := some (playerOf a pa) } (playerOf a pa)
    b pb t2 rfl (by simpa [playerOf] using hab)
  simp only [run_cons, run_nil, step, h1, h2, true_and]
  exact mapSet_of_absent _ _ _ hfresh

/-- C1, evaluated where it fails.  Sockets `c` and `d` are in the session
`game_5` and nobody is waiting.  Socket `a` seeks, then socket `b` seeks while
`Date.now()` still reads 5: the identifier `game_5` is built again and
`games.set` replaces the live session of `c` and `d`, so the store holds one
session before and one session after, not one more. -/
theorem seek_seek_same_clock_replaces_session :
    carolDaveMatched.waitingPlayer = none ∧
    carolDaveMatched.games =
      [("game_5", newGame "game_5" (playerOf "c" carol) (playerOf "d" dave))] ∧
    (run carolDaveMatched [Event.findMatch "a" alice 5, Event.findMatch "b" bob 5]).1.games =
      [("game_5", newGame "game_5" (playerOf "a" alice) (playerOf "b" bob))] ∧
    (run carolDaveMatched
      [Event.findMatch "a" alice 5, Event.findMatch "b" bob 5]).1.games.length =
      carolDaveMatched.games.length := by
  decide

/-- C2: when the waiting entry is connection `c`, a seek by `c` itself leaves
the session store (and the rooms) unchanged, emits nothing, and leaves `c` as
the waiting entry with the nickname and character of this latest seek. -/
theorem findMatch_self_keeps_waiting (s : ServerState) (w : Player) (pd : PlayerData)
    (now : Nat) (hwait : s.waitingPlayer = some w) :
    (findMatch s w.id pd now).1.games = s.games ∧
    (findMatch s w.id pd now).1.rooms = s.rooms ∧
    (findMatch s w.id pd now).2 = [] ∧
    (findMatch s w.id pd now).1.waitingPlayer =
      some { id := w.id, nickname := pd.nickname, character := pd.character } := by
  simp [findMatch_of_self s w pd now hwait, playerOf]

theorem findMatch_self_keeps_waiting_witness :
    aliceWaiting.waitingPlayer = some (playerOf "x" alice) ∧
    (findMatch aliceWaiting "x" bob 9).1.games = [] ∧
    (findMatch aliceWaiting "x" bob 9).1.rooms = [] ∧
    (findMatch aliceWaiting "x" bob 9).2 = [] ∧
    (findMatch aliceWaiting "x" bob 9).1.waitingPlayer =
      some { id := "x", nickname := "Bob", character := "mage" } :=
  ⟨rfl, findMatch_self_keeps_waiting aliceWaiting (playerOf "x" alice) bob 9 rfl⟩

/-- C3: when a seek by connection `y` pairs with the waiting connection `x`,
exactly two `match-found` notifications are emitted, both carrying the
identifier under which the new session is stored: the first goes to `x` with
`isPlayer1 = true`, the nickname and character of `y` as opponent and the
character of `x` as `myCharacter`; the second goes to `y` with
`isPlayer1 = false`, the nickname and character of `x` as opponent and the
character of `y` as `myCharacter`. -/
theorem findMatch_pair_notifications (s : ServerState) (x : Player) (y : SocketId)
    (pd : PlayerData) (now : Nat) (hwait : s.waitingPlayer = some x) (hxy : x.id ≠ y) :
    (findMatch s y pd now).2 =
      [ { recipients := [x.id]
          msg := Msg.matchFound (gameIdOf now) true pd.nickname pd.character x.character },
        { recipients := [y]
          msg := Msg.matchFound (gameIdOf now) false x.nickname x.character pd.character } ] ∧
    mapGet (findMatch s y pd now).1.games (gameIdOf now) =
      some (newGame (gameIdOf now) x
        { id := y, nickname := pd.nickname, character := pd.character }) := by
  rw [findMatch_of_other s x y pd now hwait hxy]
  exact ⟨rfl, mapGet_mapSet_self _ _ _⟩

theorem findMatch_pair_notifications_witness :
    aliceWaiting.waitingPlayer = some (playerOf "x" alice) ∧ (playerOf "x" alice).id ≠ "y" ∧
    (findMatch aliceWaiting "y" bob 7).2 =
      [ { recipients := ["x"], msg := Msg.matchFound "game_7" true "Bob" "mage" "knight" },
        { recipients := ["y"], msg := Msg.matchFound "game_7" false "Alice" "knight" "mage" } ] ∧
    mapGet (findMatch aliceWaiting "y" bob 7).1.games "game_7" =
      some (newGame "game_7" (playerOf "x" alice) (playerOf "y" bob)) :=
  ⟨rfl, by decide, findMatch_pair_notifications aliceWaiting (playerOf "x" alice) "y" bob 7 rfl
    (by decide)⟩

/-! ## Level completion -/

theorem excessBits_le (fuel : Nat) :
    ∀ (n k : Nat), n < 2 ^ (53 + k) → excessBits fuel n ≤ k := by
  induction fuel with
  | zero => intro n k _; simp [excessBits]
  | succ fuel ih =>
    intro n k hn
    unfold excessBits
    split
    · exact Nat.zero_le _
    · rename_i hge
      cases k with
      | zero => exact absurd hn hge
      | succ k =>
        have hhalf : n / 2 < 2 ^ (53 + k) := by
          have : 2 ^ (53 + (k + 1)) = 2 * 2 ^ (53 + k) := by
            rw [← Nat.add_assoc, Nat.pow_succ, Nat.mul_comm]
          omega
        have := ih (n / 2) k hhalf
        omega

/-- The bound `n` on the number of halvings is never reached: the quotient by
`2 ^ excessBits n n` is a significand of at most 53 bits, and of exactly 53
bits when `n` does not fit. -/
theorem excessBits_spec (fuel : Nat) :
    ∀ n : Nat, n ≤ fuel →
      n / 2 ^ excessBits fuel n < 2 ^ 53 ∧
      (2 ^ 53 ≤ n → 2 ^ 52 ≤ n / 2 ^ excessBits fuel n) := by
  induction fuel with
  | zero =>
    intro n hn
    have : n = 0 := by omega
    subst this
    simp [excessBits]
  | succ fuel ih =>
    intro n hn
    unfold excessBits
    split
    · rename_i hlt
      simp only [Nat.pow_zero, Nat.div_one]
      exact ⟨hlt, fun h => absurd hlt (by omega)⟩
    · rename_i hge
      have hn2 : n / 2 ≤ fuel := by omega
      obtain ⟨h1, h2⟩ := ih (n / 2) hn2
      have hdiv : n / 2 ^ (excessBits fuel (n / 2) + 1) = n / 2 / 2 ^ excessBits fuel (n / 2) := by
        rw [Nat.pow_succ, Nat.mul_comm, Nat.div_div_eq_div_mul]
      rw [hdiv]
      refine ⟨h1, fun _ => ?_⟩
      by_cases hbig : 2 ^ 53 ≤ n / 2
      · exact h2 hbig
      · have hzero : excessBits fuel (n / 2) = 0 := by
          cases fuel with
          | zero => simp [excessBits]
          | succ f =>
            have hsmall : n / 2 < 2 ^ 53 := Nat.lt_of_not_le hbig
            unfold excessBits
            rw [if_pos hsmall]
        rw [hzero]
        simp only [Nat.pow_zero, Nat.div_one]
        omega

/-- Rounding moves a number up by at most half a unit in the last place. -/
theorem roundToDouble_le (n : Nat) :
    roundToDouble n ≤ n + 2 ^ (excessBits n n - 1) := by
  unfold roundToDouble
  split
  · exact Nat.le_add_right _ _
  · simp only
    have hdm := Nat.div_add_mod n (2 ^ excessBits n n)
    have hmul : 2 ^ excessBits n n * (n / 2 ^ excessBits n n) =
        n / 2 ^ excessBits n n * 2 ^ excessBits n n := Nat.mul_comm _ _
    have hpow : 2 ^ excessBits n n ≤ 2 * 2 ^ (excessBits n n - 1) := by
      cases h : excessBits n n with
      | zero => simp
      | succ s => simp [Nat.pow_succ, Nat.mul_comm]
    split
    · omega
    · rename_i hhalf
      split
      · omega
      · rw [Nat.add_mul, Nat.one_mul]
        omega

/-- `Math.floor(Math.random() * 400)` is below 400 for every double of `[0, 1)`:
the product is at most `400 - 400 * 2^(-53)` and rounding adds at most
`2^(-45)`. -/
theorem floorRandom400_lt (d : Draw) (hd : d.valid) : floorRandom400 d < 400 := by
  obtain ⟨hmant, _, hlt⟩ := hd
  unfold floorRandom400
  have hs : excessBits (400 * d.mant) (400 * d.mant) ≤ 9 :=
    excessBits_le _ _ 9 (by norm_num; omega)
  have hround := roundToDouble_le (400 * d.mant)
  have hpow : 2 ^ (excessBits (400 * d.mant) (400 * d.mant) - 1) ≤ 2 ^ 8 :=
    Nat.pow_le_pow_right (by decide) (by omega)
  have hpos : 0 < 2 ^ d.exp := Nat.pow_pos (by decide)
  rw [Nat.div_lt_iff_lt_mul hpos]
  norm_num at hpow
  omega

theorem arraySet_last_true (stars : List (Option Bool)) (i : Nat)
    (hi : stars[i]? = some (some true))
    (hothers : ∀ j, j < stars.length → j ≠ i → stars[j]? ≠ some (some true)) :
    (arraySet stars i false).filter truthy = [] := by
  have hlt : i < stars.length := by
    by_contra hge
    rw [List.getElem?_eq_none (Nat.le_of_not_lt hge)] at hi
    exact absurd hi (by simp)
  rw [List.filter_eq_nil_iff]
  intro a ha
  simp only [arraySet, hlt, if_true] at ha
  obtain ⟨j, hj⟩ := List.mem_iff_getElem?.mp ha
  rw [List.getElem?_set] at hj
  by_cases hij : i = j
  · simp [hij] at hj
    obtain ⟨_, rfl⟩ := hj
    simp [truthy]
  · simp only [hij, if_false] at hj
    have hjlt : j < stars.length := by
      by_contra hge
      rw [List.getElem?_eq_none (Nat.le_of_not_lt hge)] at hj
      exact absurd hj (by simp)
    have := hothers j hjlt (Ne.symm hij)
    rw [hj] at this
    cases a with
    | none => simp [truthy]
    | some b =>
      cases b with
      | false => simp [truthy]
      | true => exact absurd rfl this

theorem collectStar_of_complete (s : ServerState) (sock : SocketId) (gid : GameId)
    (game : Game) (i : Nat) (playerX : Int) (r1 r2 : Draw)
    (hget : mapGet s.games gid = some game)
    (hdone : (arraySet game.state.stars i false).filter truthy = []) :
    collectStar s sock gid i playerX r1 r2 =
      ({ s with games := mapSet s.games gid { game with state :=
          { game.state with
            currentLevel := (game.state.currentLevel + 1) % 5
            stars := List.replicate 12 (some true)
            bombs := game.state.bombs ++ [spawnBomb playerX r1 r2] } } },
        [ { recipients := ioTo s.rooms gid
            msg := Msg.levelComplete ((game.state.currentLevel + 1) % 5)
              (game.state.bombs ++ [spawnBomb playerX r1 r2]) } ]) := by
  simp [collectStar, hget, hdone]

theorem collectStar_of_remaining (s : ServerState) (sock : SocketId) (gid : GameId)
    (game : Game) (i : Nat) (playerX : Int) (r1 r2 : Draw)
    (hget : mapGet s.games gid = some game)
    (hleft : (arraySet game.state.stars i false).filter truthy ≠ []) :
    collectStar s sock gid i playerX r1 r2 =
      ({ s with games := mapSet s.games gid { game with state :=
          { game.state with stars := arraySet game.state.stars i false } } },
        [ { recipients := ioTo s.rooms gid, msg := Msg.starCollected i } ]) := by
  simp [collectStar, hget, hleft]

/-- C4: in a live session whose 12 collectible flags are all false except the
one at index `i`, a `collect-star` for index `i` leaves the session with all 12
flags true, `currentLevel` equal to the old level plus one modulo 5, and a bomb
list equal to the old list with exactly one bomb appended at the end; the single
emission is a `level-complete` broadcast to the room carrying that new level and
the full new bomb list. -/
theorem collectStar_last_star (s : ServerState) (sock : SocketId) (gid : GameId)
    (game : Game) (i : Nat) (playerX : Int) (r1 r2 : Draw)
    (hget : mapGet s.games gid = some game)
    (hlen : game.state.stars.length = 12)
    (hi : game.state.stars[i]? = some (some true))
    (hothers : ∀ j, j < 12 → j ≠ i → game.state.stars[j]? ≠ some (some true)) :
    ∃ (game2 : Game) (bomb : Bomb),
      mapGet (collectStar s sock gid i playerX r1 r2).1.games gid = some game2 ∧
      game2.state.stars = List.replicate 12 (some true) ∧
      game2.state.currentLevel = (game.state.currentLevel + 1) % 5 ∧
      game2.state.bombs = game.state.bombs ++ [bomb] ∧
      (collectStar s sock gid i playerX r1 r2).2 =
        [ { recipients := ioTo s.rooms gid
            msg := Msg.levelComplete game2.state.currentLevel game2.state.bombs } ] := by
  have hdone := arraySet_last_true game.state.stars i hi (by rw [hlen]; exact hothers)
  rw [collectStar_of_complete s sock gid game i playerX r1 r2 hget hdone]
  exact ⟨_, _, mapGet_mapSet_self _ _ _, rfl, rfl, rfl, rfl⟩

theorem collectStar_last_star_witness :
    mapGet lastStarState.games "game_7" = some lastStarGame ∧
    lastStarGame.state.stars.length = 12 ∧
    lastStarGame.state.stars[0]? = some (some true) ∧
    (∀ j, j < 12 → j ≠ 0 → lastStarGame.state.stars[j]? ≠ some (some true)) ∧
    ∃ (game2 : Game) (bomb : Bomb),
      mapGet (collectStar lastStarState "x" "game_7" 0 100 drawMax drawHalf).1.games "game_7" =
        some game2 ∧
      game2.state.stars = List.replicate 12 (some true) ∧
      game2.state.currentLevel = (lastStarGame.state.currentLevel + 1) % 5 ∧
      game2.state.bombs = lastStarGame.state.bombs ++ [bomb] ∧
      (collectStar lastStarState "x" "game_7" 0 100 drawMax drawHalf).2 =
        [ { recipients := ioTo lastStarState.rooms "game_7"
            msg := Msg.levelComplete game2.state.currentLevel game2.state.bombs } ] :=
  ⟨by decide, by decide, by decide, by decide,
    collectStar_last_star lastStarState "x" "game_7" lastStarGame 0 100 drawMax drawHalf
      (by decide) (by decide) (by decide) (by decide)⟩

/-- C5: at every level completion (a `collect-star` after which no flag is
true) and for every two draws `r1`, `r2` of `Math.random()` in `[0, 1)`, the
bomb appended has `y = 16`, an integer `vx` with `-200 <= vx < 200`, and an
integer `x` with `400 <= x < 800` when the reported `playerX` is below 400 and
`0 <= x < 400` when it is 400 or more. -/
theorem collectStar_bomb_range (s : ServerState) (sock : SocketId) (gid : GameId)
    (game : Game) (i : Nat) (playerX : Int) (r1 r2 : Draw)
    (hget : mapGet s.games gid = some game)
    (hdone : (arraySet game.state.stars i false).filter truthy = [])
    (h1 : r1.valid) (h2 : r2.valid) :
    ∃ (game2 : Game) (bomb : Bomb),
      mapGet (collectStar s sock gid i playerX r1 r2).1.games gid = some game2 ∧
      game2.state.bombs = game.state.bombs ++ [bomb] ∧
      bomb.y = 16 ∧
      -200 ≤ bomb.vx ∧ bomb.vx < 200 ∧
      (playerX < 400 → 400 ≤ bomb.x ∧ bomb.x < 800) ∧
      (400 ≤ playerX → 0 ≤ bomb.x ∧ bomb.x < 400) := by
  have hb1 := floorRandom400_lt r1 h1
  have hb2 := floorRandom400_lt r2 h2
  rw [collectStar_of_complete s sock gid game i playerX r1 r2 hget hdone]
  refine ⟨_, spawnBomb playerX r1 r2, mapGet_mapSet_self _ _ _, rfl, rfl, ?_, ?_, ?_, ?_⟩
  · simp only [spawnBomb]; omega
  · simp only [spawnBomb]; omega
  · intro hx
    simp only [spawnBomb, hx, if_true]
    omega
  · intro hx
    have hnot : ¬ playerX < 400 := by omega
    simp only [spawnBomb, hnot, if_false]
    omega

theorem collectStar_bomb_range_witness :
    mapGet lastStarState.games "game_7" = some lastStarGame ∧
    (arraySet lastStarGame.state.stars 0 false).filter truthy = [] ∧
    drawMax.valid ∧ drawHalf.valid ∧
    ∃ (game2 : Game) (bomb : Bomb),
      mapGet (collectStar lastStarState "x" "game_7" 0 100 drawMax drawHalf).1.games "game_7" =
        some game2 ∧
      game2.state.bombs = lastStarGame.state.bombs ++ [bomb] ∧
      bomb.y = 16 ∧
      -200 ≤ bomb.vx ∧ bomb.vx < 200 ∧
      ((100 : Int) < 400 → 400 ≤ bomb.x ∧ bomb.x < 800) ∧
      (400 ≤ (100 : Int) → 0 ≤ bomb.x ∧ bomb.x < 400) :=
  ⟨by decide, by decide, by decide, by decide,
    collectStar_bomb_range lastStarState "x" "game_7" lastStarGame 0 100 drawMax drawHalf
      (by decide) (by decide) (by decide) (by decide)⟩

/-! ## Hits -/

theorem playerKeyOf_of_sender (game : Game) (sock : SocketId) (key : PlayerKey)
    (hdistinct : game.player1.id ≠ game.player2.id) (hsender : (game.player key).id = sock) :
    playerKeyOf game sock = key := by
  cases key with
  | player1 => simp [playerKeyOf, Game.player] at hsender ⊢; exact hsender
  | player2 =>
    simp only [Game.player] at hsender
    subst hsender
    simp [playerKeyOf, hdistinct]

/-- State after line 167 for the slot `key`. -/
theorem hitBomb_of_game (s : ServerState) (sock : SocketId) (gid : GameId) (game : Game)
    (bombIndex : Int) (key : PlayerKey) (dec : GameState)
    (hget : mapGet s.games gid = some game) (hkey : playerKeyOf game sock = key)
    (hdec : dec = game.state.setLives key (game.state.lives key - 1)) :
    hitBomb s sock gid bombIndex =
      if dec.lives key ≤ 0 then
        ({ s with games := mapSet s.games gid { game with state :=
            { dec with gameOver := true, winner := some key.other.label } } },
          [ { recipients := ioTo s.rooms gid
              msg := Msg.gameOver key.other.label dec.player1Lives dec.player2Lives } ])
      else
        ({ s with games := mapSet s.games gid { game with state := dec } },
          [ { recipients := ioTo s.rooms gid
              msg := Msg.livesUpdate dec.player1Lives dec.player2Lives bombIndex } ]) := by
  subst hdec hkey
  simp only [hitBomb, hget]

/-- C6: for a live session and a `hit-bomb` sent by the participant in slot
`key`, the lives of that slot drop by exactly 1 and the lives of the other slot
are unchanged.  If the new count is at most 0 the session gets
`gameOver = true` and `winner` the label of the other slot, and the single
emission is a `game-over` broadcast carrying that winner and both life counts;
otherwise `gameOver` and `winner` are unchanged and the single emission is a
`lives-update` broadcast carrying both life counts and the `bombIndex` of the
event. -/
theorem hitBomb_sender_loses_one_life (s : ServerState) (sock : SocketId) (gid : GameId)
    (game : Game) (bombIndex : Int) (key : PlayerKey)
    (hget : mapGet s.games gid = some game)
    (hdistinct : game.player1.id ≠ game.player2.id)
    (hsender : (game.player key).id = sock) :
    ∃ game2 : Game,
      mapGet (hitBomb s sock gid bombIndex).1.games gid = some game2 ∧
      game2.state.lives key = game.state.lives key - 1 ∧
      game2.state.lives key.other = game.state.lives key.other ∧
      (game2.state.lives key ≤ 0 →
        game2.state.gameOver = true ∧
        game2.state.winner = some key.other.label ∧
        (hitBomb s sock gid bombIndex).2 =
          [ { recipients := ioTo s.rooms gid
              msg := Msg.gameOver key.other.label game2.state.player1Lives
                game2.state.player2Lives } ]) ∧
      (¬ game2.state.lives key ≤ 0 →
        game2.state.gameOver = game.state.gameOver ∧
        game2.state.winner = game.state.winner ∧
        (hitBomb s sock gid bombIndex).2 =
          [ { recipients := ioTo s.rooms gid
              msg := Msg.livesUpdate game2.state.player1Lives game2.state.player2Lives
                bombIndex } ]) := by
  have hkey := playerKeyOf_of_sender game sock key hdistinct hsender
  rw [hitBomb_of_game s sock gid game bombIndex key _ hget hkey rfl]
  cases key with
  | player1 =>
    by_cases hle : game.state.player1Lives - 1 ≤ 0
    · simp [GameState.setLives, GameState.lives, PlayerKey.other, hle, mapGet_mapSet_self]
    · simp [GameState.setLives, GameState.lives, PlayerKey.other, hle, mapGet_mapSet_self]
      omega
  | player2 =>
    by_cases hle : game.state.player2Lives - 1 ≤ 0
    · simp [GameState.setLives, GameState.lives, PlayerKey.other, hle, mapGet_mapSet_self]
    · simp [GameState.setLives, GameState.lives, PlayerKey.other, hle, mapGet_mapSet_self]
      omega

theorem hitBomb_sender_loses_one_life_witness :
    mapGet carolDaveMatched.games "game_5" = some carolDaveGame ∧
    carolDaveGame.player1.id ≠ carolDaveGame.player2.id ∧
    (carolDaveGame.player PlayerKey.player2).id = "d" ∧
    ∃ game2 : Game,
      mapGet (hitBomb carolDaveMatched "d" "game_5" 4).1.games "game_5" = some game2 ∧
      game2.state.lives PlayerKey.player2 = carolDaveGame.state.lives PlayerKey.player2 - 1 ∧
      game2.state.lives PlayerKey.player2.other =
        carolDaveGame.state.lives PlayerKey.player2.other ∧
      (game2.state.lives PlayerKey.player2 ≤ 0 →
        game2.state.gameOver = true ∧
        game2.state.winner = some PlayerKey.player2.other.label ∧
        (hitBomb carolDaveMatched "d" "game_5" 4).2 =
          [ { recipients := ioTo carolDaveMatched.rooms "game_5"
              msg := Msg.gameOver PlayerKey.player2.other.label game2.state.player1Lives
                game2.state.player2Lives } ]) ∧
      (¬ game2.state.lives PlayerKey.player2 ≤ 0 →
        game2.state.gameOver = carolDaveGame.state.gameOver ∧
        game2.state.winner = carolDaveGame.state.winner ∧
        (hitBomb carolDaveMatched "d" "game_5" 4).2 =
          [ { recipients := ioTo carolDaveMatched.rooms "game_5"
              msg := Msg.livesUpdate game2.state.player1Lives game2.state.player2Lives 4 } ]) :=
  ⟨by decide, by decide, by decide,
    hitBomb_sender_loses_one_life carolDaveMatched "d" "game_5" carolDaveGame 4
      PlayerKey.player2 (by decide) (by decide) (by decide)⟩

/-! ## Unknown session -/

/-- C10: when the session id of an `update-position`, `collect-star` or
`hit-bomb` event is not a key of the session store, the whole server state
(waiting entry, every session, rooms) is unchanged and nothing is emitted. -/
theorem gameplay_unknown_session_ignored (s : ServerState) (sock : SocketId) (gid : GameId)
    (hunknown : mapGet s.games gid = none) :
    (∀ (x y velX : Int) (anim : String),
      step s (Event.updatePosition sock gid x y velX anim) = (s, [])) ∧
    (∀ (starIndex : Nat) (playerX : Int) (r1 r2 : Draw),
      step s (Event.collectStar sock gid starIndex playerX r1 r2) = (s, [])) ∧
    (∀ bombIndex : Int, step s (Event.hitBomb sock gid bombIndex) = (s, [])) := by
  refine ⟨?_, ?_, ?_⟩
  · intro x y velX anim
    simp only [step, updatePosition, hunknown]
  · intro starIndex playerX r1 r2
    simp only [step, collectStar, hunknown]
  · intro bombIndex
    simp only [step, hitBomb, hunknown]

theorem gameplay_unknown_session_ignored_witness :
    mapGet carolDaveMatched.games "game_6" = none ∧
    (∀ (x y velX : Int) (anim : String),
      step carolDaveMatched (Event.updatePosition "c" "game_6" x y velX anim) =
        (carolDaveMatched, [])) ∧
    (∀ (starIndex : Nat) (playerX : Int) (r1 r2 : Draw),
      step carolDaveMatched (Event.collectStar "c" "game_6" starIndex playerX r1 r2) =
        (carolDaveMatched, [])) ∧
    (∀ bombIndex : Int,
      step carolDaveMatched (Event.hitBomb "c" "game_6" bombIndex) = (carolDaveMatched, [])) :=
  ⟨by decide, gameplay_unknown_session_ignored carolDaveMatched "c" "game_6" (by decide)⟩

/-! ## A match from creation to game over -/

theorem updatePosition_of_game (s : ServerState) (sock : SocketId) (gid : GameId) (game : Game)
    (x y velX : Int) (anim : String) (hget : mapGet s.games gid = some game) :
    updatePosition s sock gid x y velX anim =
      ({ s with
         games := mapSet s.games gid
           { game with
             state := game.state.setPosition (playerKeyOf game sock) x y velX anim } },
        [ { recipients := socketTo s.rooms sock gid
            msg := Msg.opponentUpdate x y velX anim } ]) := by
  simp only [updatePosition, hget]

theorem setPosition_lives (st : GameState) (key : PlayerKey) (x y velX : Int) (anim : String) :
    (st.setPosition key x y velX anim).player1Lives = st.player1Lives ∧
    (st.setPosition key x y velX anim).player2Lives = st.player2Lives ∧
    (st.setPosition key x y velX anim).gameOver = st.gameOver ∧
    (st.setPosition key x y velX anim).winner = st.winner := by
  cases key <;> simp [GameState.setPosition]

/-- What one gameplay event of a participant does to the lives and to
`gameOver` of its session. -/
theorem step_gameplay (s : ServerState) (gid : GameId) (g0 : Game) (e : Event)
    (hget : mapGet s.games gid = some g0) (hne : g0.player1.id ≠ g0.player2.id)
    (he : isGameplayOf gid g0.player1.id g0.player2.id e = true) :
    ∃ g1 : Game,
      mapGet (step s e).1.games gid = some g1 ∧
      g1.player1 = g0.player1 ∧ g1.player2 = g0.player2 ∧
      g1.state.player1Lives = g0.state.player1Lives - (hitsBy gid g0.player1.id [e] : Nat) ∧
      g1.state.player2Lives = g0.state.player2Lives - (hitsBy gid g0.player2.id [e] : Nat) ∧
      (0 < g1.state.player1Lives → 0 < g1.state.player2Lives →
        g1.state.gameOver = g0.state.gameOver) := by
  cases e with
  | findMatch sock pd now => simp [isGameplayOf] at he
  | cancelMatchmaking sock => simp [isGameplayOf] at he
  | disconnect sock => simp [isGameplayOf] at he
  | updatePosition sock g x y velX anim =>
    simp only [isGameplayOf, Bool.and_eq_true, decide_eq_true_eq] at he
    obtain ⟨rfl, _⟩ := he
    have hl := setPosition_lives g0.state (playerKeyOf g0 sock) x y velX anim
    simp only [step, updatePosition_of_game s sock g g0 x y velX anim hget]
    refine ⟨_, mapGet_mapSet_self _ _ _, rfl, rfl, ?_, ?_, ?_⟩
    · simp [hitsBy, isHitBy, List.countP_cons, hl.1]
    · simp [hitsBy, isHitBy, List.countP_cons, hl.2.1]
    · intro _ _; exact hl.2.2.1
  | collectStar sock g i playerX r1 r2 =>
    simp only [isGameplayOf, Bool.and_eq_true, decide_eq_true_eq] at he
    obtain ⟨rfl, _⟩ := he
    by_cases hdone : (arraySet g0.state.stars i false).filter truthy = []
    · simp only [step, collectStar_of_complete s sock g g0 i playerX r1 r2 hget hdone]
      refine ⟨_, mapGet_mapSet_self _ _ _, rfl, rfl, ?_, ?_, ?_⟩
      · simp [hitsBy, isHitBy, List.countP_cons]
      · simp [hitsBy, isHitBy, List.countP_cons]
      · intro _ _; rfl
    · simp only [step, collectStar_of_remaining s sock g g0 i playerX r1 r2 hget hdone]
      refine ⟨_, mapGet_mapSet_self _ _ _, rfl, rfl, ?_, ?_, ?_⟩
      · simp [hitsBy, isHitBy, List.countP_cons]
      · simp [hitsBy, isHitBy, List.countP_cons]
      · intro _ _; rfl
  | hitBomb sock g bombIndex =>
    simp only [isGameplayOf, Bool.and_eq_true, Bool.or_eq_true, decide_eq_true_eq] at he
    obtain ⟨rfl, hsock⟩ := he
    rcases hsock with rfl | rfl
    · have hkey : playerKeyOf g0 g0.player1.id = PlayerKey.player1 := by simp [playerKeyOf]
      simp only [step, hitBomb_of_game s _ g g0 bombIndex PlayerKey.player1 _ hget hkey rfl]
      by_cases hle : g0.state.player1Lives - 1 ≤ 0
      · simp [GameState.setLives, GameState.lives, hle, mapGet_mapSet_self, hitsBy, isHitBy,
          hne, Ne.symm hne]
        intro h1; omega
      · simp [GameState.setLives, GameState.lives, hle, mapGet_mapSet_self, hitsBy, isHitBy,
          hne, Ne.symm hne]
    · have hkey : playerKeyOf g0 g0.player2.id = PlayerKey.player2 := by
        simp [playerKeyOf, hne]
      simp only [step, hitBomb_of_game s _ g g0 bombIndex PlayerKey.player2 _ hget hkey rfl]
      by_cases hle : g0.state.player2Lives - 1 ≤ 0
      · simp [GameState.setLives, GameState.lives, hle, mapGet_mapSet_self, hitsBy, isHitBy,
          hne, Ne.symm hne]
        intro _ h2; omega
      · simp [GameState.setLives, GameState.lives, hle, mapGet_mapSet_self, hitsBy, isHitBy,
          hne, Ne.symm hne]

theorem hitsBy_cons (gid : GameId) (sock : SocketId) (e : Event) (rest : List Event) :
    hitsBy gid sock (e :: rest) = hitsBy gid sock [e] + hitsBy gid sock rest := by
  simp [hitsBy, List.countP_cons, Nat.add_comm]

theorem hitsBy_append (gid : GameId) (sock : SocketId) (xs ys : List Event) :
    hitsBy gid sock (xs ++ ys) = hitsBy gid sock xs + hitsBy gid sock ys := by
  simp [hitsBy, List.countP_append]

/-- Lives and `gameOver` of a session after any sequence of gameplay events of
its two participants. -/
theorem run_gameplay (gid : GameId) (events : List Event) :
    ∀ (s : ServerState) (g0 : Game), mapGet s.games gid = some g0 →
      g0.player1.id ≠ g0.player2.id →
      (∀ e ∈ events, isGameplayOf gid g0.player1.id g0.player2.id e = true) →
      ∃ g : Game,
        mapGet (run s events).1.games gid = some g ∧
        g.player1 = g0.player1 ∧ g.player2 = g0.player2 ∧
        g.state.player1Lives = g0.state.player1Lives - (hitsBy gid g0.player1.id events : Nat) ∧
        g.state.player2Lives = g0.state.player2Lives - (hitsBy gid g0.player2.id events : Nat) ∧
        (((hitsBy gid g0.player1.id events : Nat) : Int) < g0.state.player1Lives →
          ((hitsBy gid g0.player2.id events : Nat) : Int) < g0.state.player2Lives →
          g.state.gameOver = g0.state.gameOver) := by
  induction events with
  | nil =>
    intro s g0 hget _ _
    exact ⟨g0, by simpa [run_nil] using hget, rfl, rfl, by simp [hitsBy], by simp [hitsBy],
      fun _ _ => rfl⟩
  | cons e rest ih =>
    intro s g0 hget hne hall
    obtain ⟨g1, hget1, hp1, hp2, hl1, hl2, hover1⟩ :=
      step_gameplay s gid g0 e hget hne (hall e (List.mem_cons_self _ _))
    have hne1 : g1.player1.id ≠ g1.player2.id := by rw [hp1, hp2]; exact hne
    have hall1 : ∀ e2 ∈ rest, isGameplayOf gid g1.player1.id g1.player2.id e2 = true := by
      intro e2 he2
      rw [hp1, hp2]
      exact hall e2 (List.mem_cons_of_mem _ he2)
    obtain ⟨g, hgetg, hq1, hq2, hm1, hm2, hover⟩ := ih (step s e).1 g1 hget1 hne1 hall1
    simp only [hp1, hp2] at hm1 hm2 hover
    refine ⟨g, by rw [run_cons]; exact hgetg, hq1.trans hp1, hq2.trans hp2, ?_, ?_, ?_⟩
    · rw [hm1, hl1, hitsBy_cons gid g0.player1.id e rest]
      push_cast
      omega
    · rw [hm2, hl2, hitsBy_cons gid g0.player2.id e rest]
      push_cast
      omega
    · intro h1 h2
      rw [hitsBy_cons gid g0.player1.id e rest] at h1
      rw [hitsBy_cons gid g0.player2.id e rest] at h2
      push_cast at h1 h2
      have hr := hover (by omega) (by omega)
      have h0 := hover1 (by omega) (by omega)
      exact hr.trans h0

/-- A hit that takes the lives of slot `key` to 0 or below ends the game in
favour of the other slot. -/
theorem hitBomb_fatal (s : ServerState) (sock : SocketId) (gid : GameId) (game : Game)
    (bombIndex : Int) (key : PlayerKey)
    (hget : mapGet s.games gid = some game) (hkey : playerKeyOf game sock = key)
    (hle : game.state.lives key - 1 ≤ 0) :
    ∃ game2 : Game,
      mapGet (hitBomb s sock gid bombIndex).1.games gid = some game2 ∧
      game2.state.gameOver = true ∧
      game2.state.winner = some key.other.label ∧
      game2.state.lives key = game.state.lives key - 1 := by
  rw [hitBomb_of_game s sock gid game bombIndex key _ hget hkey rfl]
  cases key with
  | player1 =>
    simp only [GameState.lives] at hle
    simp [GameState.setLives, GameState.lives, hle, mapGet_mapSet_self]
  | player2 =>
    simp only [GameState.lives] at hle
    simp [GameState.setLives, GameState.lives, hle, mapGet_mapSet_self]

theorem fresh_no_game_over (s : ServerState) (gid : GameId) (p1 p2 : Player)
    (hget : mapGet s.games gid = some (newGame gid p1 p2)) (hne : p1.id ≠ p2.id)
    (events : List Event) (hall : ∀ e ∈ events, isGameplayOf gid p1.id p2.id e = true)
    (h1 : hitsBy gid p1.id events < 3) (h2 : hitsBy gid p2.id events < 3) :
    ∃ g : Game, mapGet (run s events).1.games gid = some g ∧ g.state.gameOver = false := by
  obtain ⟨g, hgetg, _, _, _, _, hover⟩ := run_gameplay gid events s (newGame gid p1 p2) hget hne hall
  refine ⟨g, hgetg, ?_⟩
  have := hover (by simp only [newGame]; omega) (by simp only [newGame]; omega)
  simpa [newGame] using this

theorem fresh_third_hit (s : ServerState) (gid : GameId) (p1 p2 : Player)
    (hget : mapGet s.games gid = some (newGame gid p1 p2)) (hne : p1.id ≠ p2.id)
    (events : List Event) (hall : ∀ e ∈ events, isGameplayOf gid p1.id p2.id e = true)
    (key : PlayerKey) (bombIndex : Int)
    (htwo : hitsBy gid ((newGame gid p1 p2).player key).id events = 2) :
    ∃ g : Game,
      mapGet (run s (events ++
        [Event.hitBomb ((newGame gid p1 p2).player key).id gid bombIndex])).1.games gid = some g ∧
      g.state.gameOver = true ∧
      g.state.winner = some key.other.label ∧
      g.state.lives key = 0 := by
  obtain ⟨g, hgetg, hp1, hp2, hl1, hl2, _⟩ :=
    run_gameplay gid events s (newGame gid p1 p2) hget hne hall
  have hneg : g.player1.id ≠ g.player2.id := by rw [hp1, hp2]; exact hne
  have hsender : (g.player key).id = ((newGame gid p1 p2).player key).id := by
    cases key with
    | player1 => simp [Game.player, hp1]
    | player2 => simp [Game.player, hp2]
  have hkey := playerKeyOf_of_sender g _ key hneg hsender
  have hone : g.state.lives key = 1 := by
    cases key with
    | player1 =>
      simp only [Game.player, newGame] at htwo
      simp only [newGame] at hl1
      simp only [GameState.lives, hl1, htwo]
      decide
    | player2 =>
      simp only [Game.player, newGame] at htwo
      simp only [newGame] at hl2
      simp only [GameState.lives, hl2, htwo]
      decide
  obtain ⟨g2, hget2, hover, hwin, hlives⟩ :=
    hitBomb_fatal (run s events).1 _ gid g bombIndex key hgetg hkey (by rw [hone]; decide)
  refine ⟨g2, ?_, hover, hwin, by rw [hlives, hone]; decide⟩
  rw [run_snoc_state]
  exact hget2

/-- C7: in a freshly created session and for every sequence of gameplay events
sent by its two participants, `gameOver` is false as long as each participant
has sent fewer than three hits; the event that is the third hit of the
participant in slot `key` yields `gameOver = true`, `winner` the label of the
other slot and 0 lives for slot `key`; in particular three hits from
`player1` give `gameOver = true`, `winner = "player2"` and `player1Lives = 0`. -/
theorem fresh_session_three_hits (s : ServerState) (gid : GameId) (p1 p2 : Player)
    (hget : mapGet s.games gid = some (newGame gid p1 p2)) (hne : p1.id ≠ p2.id) :
    (∀ events : List Event, (∀ e ∈ events, isGameplayOf gid p1.id p2.id e = true) →
      hitsBy gid p1.id events < 3 → hitsBy gid p2.id events < 3 →
      ∃ g : Game, mapGet (run s events).1.games gid = some g ∧ g.state.gameOver = false) ∧
    (∀ (events : List Event) (key : PlayerKey) (bombIndex : Int),
      (∀ e ∈ events, isGameplayOf gid p1.id p2.id e = true) →
      hitsBy gid ((newGame gid p1 p2).player key).id events = 2 →
      ∃ g : Game,
        mapGet (run s (events ++
          [Event.hitBomb ((newGame gid p1 p2).player key).id gid bombIndex])).1.games gid =
            some g ∧
        g.state.gameOver = true ∧
        g.state.winner = some key.other.label ∧
        g.state.lives key = 0) ∧
    (∀ b1 b2 b3 : Int,
      ∃ g : Game,
        mapGet (run s [Event.hitBomb p1.id gid b1, Event.hitBomb p1.id gid b2,
          Event.hitBomb p1.id gid b3]).1.games gid = some g ∧
        g.state.gameOver = true ∧
        g.state.winner = some "player2" ∧
        g.state.player1Lives = 0) := by
  refine ⟨?_, ?_, ?_⟩
  · intro events hall h1 h2
    exact fresh_no_game_over s gid p1 p2 hget hne events hall h1 h2
  · intro events key bombIndex hall htwo
    exact fresh_third_hit s gid p1 p2 hget hne events hall key bombIndex htwo
  · intro b1 b2 b3
    have hall : ∀ e ∈ [Event.hitBomb p1.id gid b1, Event.hitBomb p1.id gid b2],
        isGameplayOf gid p1.id p2.id e = true := by
      intro e he
      simp only [List.mem_cons, List.mem_singleton, List.not_mem_nil, or_false] at he
      rcases he with rfl | rfl <;> simp [isGameplayOf]
    have htwo : hitsBy gid ((newGame gid p1 p2).player PlayerKey.player1).id
        [Event.hitBomb p1.id gid b1, Event.hitBomb p1.id gid b2] = 2 := by
      simp [hitsBy, isHitBy, Game.player, newGame]
    exact fresh_third_hit s gid p1 p2 hget hne _ hall PlayerKey.player1 b3 htwo

theorem fresh_session_three_hits_witness :
    mapGet carolDaveMatched.games "game_5" =
      some (newGame "game_5" (playerOf "c" carol) (playerOf "d" dave)) ∧
    (playerOf "c" carol).id ≠ (playerOf "d" dave).id ∧
    ∃ g : Game,
      mapGet (run carolDaveMatched [Event.hitBomb "c" "game_5" 0, Event.hitBomb "c" "game_5" 1,
        Event.hitBomb "c" "game_5" 2]).1.games "game_5" = some g ∧
      g.state.gameOver = true ∧
      g.state.winner = some "player2" ∧
      g.state.player1Lives = 0 :=
  ⟨by decide, by decide,
    (fresh_session_three_hits carolDaveMatched "game_5" (playerOf "c" carol)
      (playerOf "d" dave) (by decide) (by decide)).2.2 0 1 2⟩

/-! ## Lives across all reachable states -/

theorem mapGet_mem {β : Type} (m : List (String × β)) (k : String) (v : β)
    (hget : mapGet m k = some v) : (k, v) ∈ m := by
  induction m with
  | nil => simp [mapGet] at hget
  | cons e rest ih =>
    obtain ⟨k1, v1⟩ := e
    by_cases h : k1 = k
    · simp only [mapGet, h, if_true, Option.some.injEq] at hget
      simp [h, hget]
    · simp only [mapGet, h, if_false] at hget
      exact List.mem_cons_of_mem _ (ih hget)

theorem mem_mapSet {β : Type} (m : List (String × β)) (k : String) (v : β) (x : String × β)
    (hx : x ∈ mapSet m k v) : x ∈ m ∨ x = (k, v) := by
  induction m with
  | nil =>
    simp only [mapSet, List.mem_singleton] at hx
    exact Or.inr hx
  | cons e rest ih =>
    obtain ⟨k1, v1⟩ := e
    by_cases h : k1 = k
    · simp only [mapSet, h, if_true, List.mem_cons] at hx
      rcases hx with hx | hx
      · exact Or.inr hx
      · exact Or.inl (List.mem_cons_of_mem _ hx)
    · simp only [mapSet, h, if_false, List.mem_cons] at hx
      rcases hx with hx | hx
      · exact Or.inl (by simp [hx])
      · rcases ih hx with h1 | h1
        · exact Or.inl (List.mem_cons_of_mem _ h1)
        · exact Or.inr h1

theorem livesInv_mapSet (s : ServerState) (gid : GameId) (game : Game)
    (hinv : ∀ x ∈ s.games, LivesInv x.2) (hgame : LivesInv game) :
    ∀ x ∈ mapSet s.games gid game, LivesInv x.2 := by
  intro x hx
  rcases mem_mapSet _ _ _ _ hx with h | h
  · exact hinv x h
  · rw [h]; exact hgame

theorem step_livesInv (s : ServerState) (e : Event) (hinv : ∀ x ∈ s.games, LivesInv x.2) :
    ∀ x ∈ (step s e).1.games, LivesInv x.2 := by
  cases e with
  | findMatch sock pd now =>
    cases hw : s.waitingPlayer with
    | none => simpa [step, findMatch_of_none s sock pd now hw] using hinv
    | some w =>
      by_cases hne : w.id = sock
      · subst hne
        simpa [step, findMatch_of_self s w pd now hw] using hinv
      · simp only [step, findMatch_of_other s w sock pd now hw hne]
        exact livesInv_mapSet s _ _ hinv (by intro _; simp [newGame])
  | cancelMatchmaking sock =>
    intro x hx
    apply hinv
    simp only [step, cancelMatchmaking] at hx
    split at hx
    · exact hx
    · split at hx <;> exact hx
  | disconnect sock =>
    intro x hx
    simp only [step, disconnect, List.mem_filter] at hx
    exact hinv x hx.1
  | updatePosition sock gid x y velX anim =>
    cases hget : mapGet s.games gid with
    | none => simpa [step, updatePosition, hget] using hinv
    | some game =>
      simp only [step, updatePosition_of_game s sock gid game x y velX anim hget]
      have hl := setPosition_lives game.state (playerKeyOf game sock) x y velX anim
      have hg : LivesInv game := hinv _ (mapGet_mem _ _ _ hget)
      apply livesInv_mapSet s _ _ hinv
      intro hover
      simp only [hl.1, hl.2.1, hl.2.2.1] at hover ⊢
      exact hg hover
  | collectStar sock gid i playerX r1 r2 =>
    cases hget : mapGet s.games gid with
    | none => simpa [step, collectStar, hget] using hinv
    | some game =>
      have hg : LivesInv game := hinv _ (mapGet_mem _ _ _ hget)
      by_cases hdone : (arraySet game.state.stars i false).filter truthy = []
      · simp only [step, collectStar_of_complete s sock gid game i playerX r1 r2 hget hdone]
        exact livesInv_mapSet s _ _ hinv hg
      · simp only [step, collectStar_of_remaining s sock gid game i playerX r1 r2 hget hdone]
        exact livesInv_mapSet s _ _ hinv hg
  | hitBomb sock gid bombIndex =>
    cases hget : mapGet s.games gid with
    | none => simpa [step, hitBomb, hget] using hinv
    | some game =>
      have hg : LivesInv game := hinv _ (mapGet_mem _ _ _ hget)
      simp only [step, hitBomb_of_game s sock gid game bombIndex _ _ hget rfl rfl]
      split
      · apply livesInv_mapSet s _ _ hinv
        intro hover
        simp at hover
      · rename_i hpos
        apply livesInv_mapSet s _ _ hinv
        intro hover
        cases hk : playerKeyOf game sock with
        | player1 =>
          simp only [hk, GameState.setLives, GameState.lives] at hpos hover ⊢
          have := hg hover
          omega
        | player2 =>
          simp only [hk, GameState.setLives, GameState.lives] at hpos hover ⊢
          have := hg hover
          omega

theorem run_livesInv (events : List Event) :
    ∀ s : ServerState, (∀ x ∈ s.games, LivesInv x.2) →
      ∀ x ∈ (run s events).1.games, LivesInv x.2 := by
  induction events with
  | nil => intro s hinv; simpa [run_nil] using hinv
  | cons e rest ih =>
    intro s hinv
    rw [run_cons]
    exact ih _ (step_livesInv s e hinv)

/-- C8, refuted as stated.  After the pairing of `a` and `b` and four
`hit-bomb` events from `a`, the live session `game_5` has
`player1Lives = -1`: the third hit ends the game and the fourth still
decrements, since line 167 runs without looking at `gameOver`. -/
theorem lives_negative_after_fourth_hit :
    Reachable (run ServerState.init fourHits).1 ∧
    mapGet (run ServerState.init fourHits).1.games "game_5" = some fourHitsGame ∧
    fourHitsGame.state.player1Lives = -1 ∧
    ¬ (∀ s : ServerState, Reachable s → ∀ (gid : GameId) (game : Game),
        mapGet s.games gid = some game →
        0 ≤ game.state.player1Lives ∧ 0 ≤ game.state.player2Lives) := by
  refine ⟨⟨fourHits, rfl⟩, by decide, by decide, ?_⟩
  intro h
  have := (h _ ⟨fourHits, rfl⟩ "game_5" fourHitsGame (by decide)).1
  exact absurd this (by decide)

/-- C8, amended: in every state reachable from the empty server state by any
sequence of inbound events, every live session whose `gameOver` is false has
`player1Lives >= 1` and `player2Lives >= 1`, hence both counters non-negative.
(Once `gameOver` is true further hits keep decrementing.) -/
theorem lives_positive_while_active (s : ServerState) (hreach : Reachable s)
    (gid : GameId) (game : Game) (hlive : mapGet s.games gid = some game)
    (hactive : game.state.gameOver = false) :
    1 ≤ game.state.player1Lives ∧ 1 ≤ game.state.player2Lives := by
  obtain ⟨events, rfl⟩ := hreach
  have hinv := run_livesInv events ServerState.init (by simp [ServerState.init])
  exact hinv (gid, game) (mapGet_mem _ _ _ hlive) hactive

theorem lives_positive_while_active_witness :
    Reachable carolDaveMatched ∧
    mapGet carolDaveMatched.games "game_5" = some carolDaveGame ∧
    carolDaveGame.state.gameOver = false ∧
    1 ≤ carolDaveGame.state.player1Lives ∧ 1 ≤ carolDaveGame.state.player2Lives :=
  ⟨⟨_, rfl⟩, by decide, by decide,
    lives_positive_while_active carolDaveMatched ⟨_, rfl⟩ "game_5" carolDaveGame (by decide)
      (by decide)⟩

/-! ## After game over -/

/-- C9, refuted as stated.  In `gameOverState` the session `game_5` is over
with winner `player2`, and `b` has one life left.  One more `hit-bomb` from `b`
takes that counter to 0: the winner label becomes `player1` and a second
`game-over` broadcast is emitted. -/
theorem game_over_fires_again :
    Reachable gameOverState ∧
    mapGet gameOverState.games "game_5" = some gameOverGame ∧
    gameOverGame.state.gameOver = true ∧
    gameOverGame.state.winner = some "player2" ∧
    (mapGet (step gameOverState (Event.hitBomb "b" "game_5" 5)).1.games "game_5").map
      (fun g => (g.state.gameOver, g.state.winner)) = some (true, some "player1") ∧
    (step gameOverState (Event.hitBomb "b" "game_5" 5)).2 =
      [ { recipients := ["a", "b"], msg := Msg.gameOver "player1" 0 0 } ] := by
  refine ⟨⟨gameOverTrace, rfl⟩, by decide, by decide, by decide, by decide, by decide⟩

/-- C9, amended: for every live session with `gameOver = true` and every later
gameplay event on it, `gameOver` stays true.  An `update-position` or a
`collect-star` leaves the winner label unchanged and emits no `game-over`; so
does a `hit-bomb` that leaves the decremented counter above 0.  A `hit-bomb`
that leaves the decremented counter at 0 or below sets the winner label to the
slot other than the decremented one and emits one more `game-over`
broadcast. -/
theorem game_over_stays (s : ServerState) (gid : GameId) (game : Game)
    (hget : mapGet s.games gid = some game) (hover : game.state.gameOver = true) :
    (∀ (sock : SocketId) (x y velX : Int) (anim : String),
      ∃ g2 : Game,
        mapGet (step s (Event.updatePosition sock gid x y velX anim)).1.games gid = some g2 ∧
        g2.state.gameOver = true ∧
        g2.state.winner = game.state.winner ∧
        ∀ em ∈ (step s (Event.updatePosition sock gid x y velX anim)).2,
          em.msg.isGameOver = false) ∧
    (∀ (sock : SocketId) (starIndex : Nat) (playerX : Int) (r1 r2 : Draw),
      ∃ g2 : Game,
        mapGet (step s (Event.collectStar sock gid starIndex playerX r1 r2)).1.games gid =
          some g2 ∧
        g2.state.gameOver = true ∧
        g2.state.winner = game.state.winner ∧
        ∀ em ∈ (step s (Event.collectStar sock gid starIndex playerX r1 r2)).2,
          em.msg.isGameOver = false) ∧
    (∀ (sock : SocketId) (bombIndex : Int),
      ∃ g2 : Game,
        mapGet (step s (Event.hitBomb sock gid bombIndex)).1.games gid = some g2 ∧
        g2.state.gameOver = true ∧
        (0 < game.state.lives (playerKeyOf game sock) - 1 →
          g2.state.winner = game.state.winner ∧
          ∀ em ∈ (step s (Event.hitBomb sock gid bombIndex)).2, em.msg.isGameOver = false) ∧
        (game.state.lives (playerKeyOf game sock) - 1 ≤ 0 →
          g2.state.winner = some (playerKeyOf game sock).other.label ∧
          (step s (Event.hitBomb sock gid bombIndex)).2 =
            [ { recipients := ioTo s.rooms gid
                msg := Msg.gameOver (playerKeyOf game sock).other.label
                  g2.state.player1Lives g2.state.player2Lives } ])) := by
  refine ⟨?_, ?_, ?_⟩
  · intro sock x y velX anim
    have hl := setPosition_lives game.state (playerKeyOf game sock) x y velX anim
    simp only [step, updatePosition_of_game s sock gid game x y velX anim hget]
    refine ⟨_, mapGet_mapSet_self _ _ _, ?_, hl.2.2.2, ?_⟩
    · exact hl.2.2.1.trans hover
    · intro em hem
      simp only [List.mem_singleton] at hem
      subst hem
      rfl
  · intro sock i playerX r1 r2
    by_cases hdone : (arraySet game.state.stars i false).filter truthy = []
    · simp only [step, collectStar_of_complete s sock gid game i playerX r1 r2 hget hdone]
      refine ⟨_, mapGet_mapSet_self _ _ _, hover, rfl, ?_⟩
      intro em hem
      simp only [List.mem_singleton] at hem
      subst hem
      rfl
    · simp only [step, collectStar_of_remaining s sock gid game i playerX r1 r2 hget hdone]
      refine ⟨_, mapGet_mapSet_self _ _ _, hover, rfl, ?_⟩
      intro em hem
      simp only [List.mem_singleton] at hem
      subst hem
      rfl
  · intro sock bombIndex
    simp only [step, hitBomb_of_game s sock gid game bombIndex _ _ hget rfl rfl]
    cases hk : playerKeyOf game sock with
    | player1 =>
      by_cases hle : game.state.player1Lives - 1 ≤ 0
      · simp [GameState.setLives, GameState.lives, hle, mapGet_mapSet_self]
        intro h; omega
      · simp [GameState.setLives, GameState.lives, hle, mapGet_mapSet_self, hover,
          Msg.isGameOver]
    | player2 =>
      by_cases hle : game.state.player2Lives - 1 ≤ 0
      · simp [GameState.setLives, GameState.lives, hle, mapGet_mapSet_self]
        intro h; omega
      · simp [GameState.setLives, GameState.lives, hle, mapGet_mapSet_self, hover,
          Msg.isGameOver]

theorem game_over_stays_witness :
    mapGet gameOverState.games "game_5" = some gameOverGame ∧
    gameOverGame.state.gameOver = true ∧
    ∃ g2 : Game,
      mapGet (step gameOverState (Event.hitBomb "a" "game_5" 5)).1.games "game_5" = some g2 ∧
      g2.state.gameOver = true ∧
      (0 < gameOverGame.state.lives (playerKeyOf gameOverGame "a") - 1 →
        g2.state.winner = gameOverGame.state.winner ∧
        ∀ em ∈ (step gameOverState (Event.hitBomb "a" "game_5" 5)).2,
          em.msg.isGameOver = false) ∧
      (gameOverGame.state.lives (playerKeyOf gameOverGame "a") - 1 ≤ 0 →
        g2.state.winner = some (playerKeyOf gameOverGame "a").other.label ∧
        (step gameOverState (Event.hitBomb "a" "game_5" 5)).2 =
          [ { recipients := ioTo gameOverState.rooms "game_5"
              msg := Msg.gameOver (playerKeyOf gameOverGame "a").other.label
                g2.state.player1Lives g2.state.player2Lives } ]) :=
  ⟨by decide, by decide,
    (game_over_stays gameOverState "game_5" gameOverGame (by decide) (by decide)).2.2 "a" 5⟩

/-! ## Cancelling a seek -/

/-- C11: a `cancel-matchmaking` by connection `c` empties the waiting entry
when that entry exists and has connection id `c`, and leaves the waiting entry
as it was in every other case; in both cases the session store (and the rooms)
is unchanged and nothing is emitted. -/
theorem cancelMatchmaking_owner_only (s : ServerState) (c : SocketId) :
    ((∃ w : Player, s.waitingPlayer = some w ∧ w.id = c) →
      (cancelMatchmaking s c).1.waitingPlayer = none) ∧
    ((¬ ∃ w : Player, s.waitingPlayer = some w ∧ w.id = c) →
      (cancelMatchmaking s c).1.waitingPlayer = s.waitingPlayer) ∧
    (cancelMatchmaking s c).1.games = s.games ∧
    (cancelMatchmaking s c).1.rooms = s.rooms ∧
    (cancelMatchmaking s c).2 = [] := by
  cases hw : s.waitingPlayer with
  | none => simp [cancelMatchmaking, hw]
  | some w =>
    by_cases hid : w.id = c
    · simp [cancelMatchmaking, hw, hid]
    · simp [cancelMatchmaking, hw, hid]

/-! ## The slot of a sender -/

/-- C20: the slot of a caller is decided by comparing its connection id with
that of `player1` only.  For every live session and every connection `c` whose
id differs from the id of `player1`, participant or not, a `hit-bomb` from `c`
takes one life from `player2` and none from `player1`, and ends the game with
winner `player1` when that leaves `player2` at 0 or below; an
`update-position` from `c` overwrites the four position fields of `player2`
and leaves those of `player1` alone. -/
theorem slot_decided_by_player1_only (s : ServerState) (c : SocketId) (gid : GameId)
    (game : Game) (hget : mapGet s.games gid = some game) (hc : c ≠ game.player1.id) :
    (∀ bombIndex : Int,
      ∃ g2 : Game,
        mapGet (step s (Event.hitBomb c gid bombIndex)).1.games gid = some g2 ∧
        g2.state.player2Lives = game.state.player2Lives - 1 ∧
        g2.state.player1Lives = game.state.player1Lives ∧
        (game.state.player2Lives - 1 ≤ 0 →
          g2.state.gameOver = true ∧ g2.state.winner = some "player1")) ∧
    (∀ (x y velX : Int) (anim : String),
      ∃ g2 : Game,
        mapGet (step s (Event.updatePosition c gid x y velX anim)).1.games gid = some g2 ∧
        g2.state.player2X = x ∧ g2.state.player2Y = y ∧
        g2.state.player2VelX = velX ∧ g2.state.player2Anim = anim ∧
        g2.state.player1X = game.state.player1X ∧
        g2.state.player1Y = game.state.player1Y ∧
        g2.state.player1VelX = game.state.player1VelX ∧
        g2.state.player1Anim = game.state.player1Anim) := by
  have hkey : playerKeyOf game c = PlayerKey.player2 := by
    simp [playerKeyOf, Ne.symm hc]
  refine ⟨?_, ?_⟩
  · intro bombIndex
    simp only [step, hitBomb_of_game s c gid game bombIndex PlayerKey.player2 _ hget hkey rfl]
    by_cases hle : game.state.player2Lives - 1 ≤ 0
    · simp [GameState.setLives, GameState.lives, PlayerKey.other, PlayerKey.label, hle,
        mapGet_mapSet_self]
    · simp [GameState.setLives, GameState.lives, hle, mapGet_mapSet_self]
  · intro x y velX anim
    simp only [step, updatePosition_of_game s c gid game x y velX anim hget, hkey]
    exact ⟨_, mapGet_mapSet_self _ _ _, rfl, rfl, rfl, rfl, rfl, rfl, rfl, rfl⟩

theorem slot_decided_by_player1_only_witness :
    mapGet bobOneLife.games "game_5" = some bobOneLifeGame ∧
    "z" ≠ bobOneLifeGame.player1.id ∧ "z" ≠ bobOneLifeGame.player2.id ∧
    ∃ g2 : Game,
      mapGet (step bobOneLife (Event.hitBomb "z" "game_5" 0)).1.games "game_5" = some g2 ∧
      g2.state.player2Lives = bobOneLifeGame.state.player2Lives - 1 ∧
      g2.state.player1Lives = bobOneLifeGame.state.player1Lives ∧
      (bobOneLifeGame.state.player2Lives - 1 ≤ 0 →
        g2.state.gameOver = true ∧ g2.state.winner = some "player1") :=
  ⟨by decide, by decide, by decide,
    (slot_decided_by_player1_only bobOneLife "z" "game_5" bobOneLifeGame (by decide)
      (by decide)).1 0⟩

/-! ## Position updates -/

theorem mem_socketTo (rooms : List (GameId × List SocketId)) (sock : SocketId) (room : GameId) :
    sock ∉ socketTo rooms sock room := by
  simp [socketTo]

/-- The frame of `update-position`: for a live session and an event sent by the
participant in slot `key`, the four position fields of that slot become exactly the reported
values; the position of the other slot, both life counters, the level, the
collectibles, the bombs, `gameOver`, `winner`, the session id and both
participant records are unchanged; every other session, the waiting entry and
the rooms are unchanged; and exactly one `opponent-update` carrying the reported
tuple is emitted, to the members of the session's room other than the sender
(the other participant alone when the room holds the two participants). -/
theorem updatePosition_frame (s : ServerState) (sock : SocketId) (gid : GameId) (game : Game)
    (x y velX : Int) (anim : String) (key : PlayerKey)
    (hget : mapGet s.games gid = some game)
    (hdistinct : game.player1.id ≠ game.player2.id)
    (hsender : (game.player key).id = sock) :
    ∃ g2 : Game,
      (step s (Event.updatePosition sock gid x y velX anim)).1.games = mapSet s.games gid g2 ∧
      mapGet (step s (Event.updatePosition sock gid x y velX anim)).1.games gid = some g2 ∧
      g2.state.position key = (x, y, velX, anim) ∧
      g2.state.position key.other = game.state.position key.other ∧
      g2.state.player1Lives = game.state.player1Lives ∧
      g2.state.player2Lives = game.state.player2Lives ∧
      g2.state.currentLevel = game.state.currentLevel ∧
      g2.state.stars = game.state.stars ∧
      g2.state.bombs = game.state.bombs ∧
      g2.state.gameOver = game.state.gameOver ∧
      g2.state.winner = game.state.winner ∧
      g2.id = game.id ∧ g2.player1 = game.player1 ∧ g2.player2 = game.player2 ∧
      (∀ k : GameId, k ≠ gid →
        mapGet (step s (Event.updatePosition sock gid x y velX anim)).1.games k =
          mapGet s.games k) ∧
      (step s (Event.updatePosition sock gid x y velX anim)).1.waitingPlayer =
        s.waitingPlayer ∧
      (step s (Event.updatePosition sock gid x y velX anim)).1.rooms = s.rooms ∧
      (step s (Event.updatePosition sock gid x y velX anim)).2 =
        [ { recipients := (roomMembers s.rooms gid).filter fun m => decide (m ≠ sock)
            msg := Msg.opponentUpdate x y velX anim } ] ∧
      (roomMembers s.rooms gid = [game.player1.id, game.player2.id] →
        (step s (Event.updatePosition sock gid x y velX anim)).2 =
          [ { recipients := [(game.player key.other).id]
              msg := Msg.opponentUpdate x y velX anim } ]) := by
  have hkey := playerKeyOf_of_sender game sock key hdistinct hsender
  simp only [step, updatePosition_of_game s sock gid game x y velX anim hget, hkey]
  refine ⟨_, rfl, mapGet_mapSet_self _ _ _, ?_, ?_, ?_, ?_, ?_, ?_, ?_, ?_, ?_, rfl, rfl, rfl,
    ?_, trivial, trivial, rfl, ?_⟩
  · cases key <;> rfl
  · cases key <;> rfl
  · cases key <;> rfl
  · cases key <;> rfl
  · cases key <;> rfl
  · cases key <;> rfl
  · cases key <;> rfl
  · cases key <;> rfl
  · cases key <;> rfl
  · intro k hk
    exact mapGet_mapSet_ne _ _ _ _ hk
  · intro hroom
    subst hsender
    cases key with
    | player1 =>
      simp [socketTo, hroom, Game.player, PlayerKey.other, List.filter, Ne.symm hdistinct]
    | player2 =>
      simp [socketTo, hroom, Game.player, PlayerKey.other, List.filter, hdistinct]

theorem updatePosition_frame_witness :
    mapGet carolDaveMatched.games "game_5" = some carolDaveGame ∧
    carolDaveGame.player1.id ≠ carolDaveGame.player2.id ∧
    (carolDaveGame.player PlayerKey.player2).id = "d" ∧
    (step carolDaveMatched (Event.updatePosition "d" "game_5" 640 300 (-160) "left")).2 =
      [ { recipients := ["c"], msg := Msg.opponentUpdate 640 300 (-160) "left" } ] ∧
    (mapGet (step carolDaveMatched
        (Event.updatePosition "d" "game_5" 640 300 (-160) "left")).1.games "game_5").map
      (fun g => g.state.position PlayerKey.player2) = some (640, 300, -160, "left") :=
  ⟨by decide, by decide, by decide,
    by
      obtain ⟨g2, _, _, _, _, _, _, _, _, _, _, _, _, _, _, _, _, _, _, hroom⟩ :=
        updatePosition_frame carolDaveMatched "d" "game_5" carolDaveGame 640 300 (-160) "left"
          PlayerKey.player2 (by decide) (by decide) (by decide)
      exact hroom (by decide),
    by decide⟩

/-! ## Who receives a broadcast -/

/-- C16, refuted as stated.  In `carolDaveMatched` socket `c` sends a
`collect-star` for star 0: the `star-collected` broadcast of line 153 goes to
`c` and `d`.  In `lastStarState` socket `x` collects the last star: the
`level-complete` broadcast of line 147 goes to `x` and `y`.  Both use
`io.to(room)`, which delivers to the sender too. -/
theorem collect_broadcast_reaches_sender :
    (step carolDaveMatched (Event.collectStar "c" "game_5" 0 100 drawMax drawHalf)).2 =
      [ { recipients := ["c", "d"], msg := Msg.starCollected 0 } ] ∧
    (step lastStarState (Event.collectStar "x" "game_7" 0 100 drawMax drawHalf)).2 =
      [ { recipients := ["x", "y"]
          msg := Msg.levelComplete 0 [{ x := 10, y := 16, vx := -3 },
            { x := 799, y := 16, vx := 0 }] } ] := by
  decide

/-- C16, amended: the recipients of a position broadcast never contain the
connection whose `update-position` triggered it; a `star-collected` or
`level-complete` broadcast goes to all members of the session's room, so it
reaches the triggering connection exactly when that connection is a member of
the room. -/
theorem broadcast_recipients (s : ServerState) (sock : SocketId) (gid : GameId) :
    (∀ (x y velX : Int) (anim : String),
      ∀ em ∈ (step s (Event.updatePosition sock gid x y velX anim)).2,
        sock ∉ em.recipients) ∧
    (∀ (starIndex : Nat) (playerX : Int) (r1 r2 : Draw),
      ∀ em ∈ (step s (Event.collectStar sock gid starIndex playerX r1 r2)).2,
        em.recipients = roomMembers s.rooms gid ∧
        (sock ∈ em.recipients ↔ sock ∈ roomMembers s.rooms gid)) := by
  refine ⟨?_, ?_⟩
  · intro x y velX anim em hem
    cases hget : mapGet s.games gid with
    | none => simp [step, updatePosition, hget] at hem
    | some game =>
      simp only [step, updatePosition_of_game s sock gid game x y velX anim hget,
        List.mem_singleton] at hem
      subst hem
      exact mem_socketTo _ _ _
  · intro i playerX r1 r2 em hem
    cases hget : mapGet s.games gid with
    | none => simp [step, collectStar, hget] at hem
    | some game =>
      by_cases hdone : (arraySet game.state.stars i false).filter truthy = []
      · simp only [step, collectStar_of_complete s sock gid game i playerX r1 r2 hget hdone,
          List.mem_singleton] at hem
        subst hem
        exact ⟨rfl, Iff.rfl⟩
      · simp only [step, collectStar_of_remaining s sock gid game i playerX r1 r2 hget hdone,
          List.mem_singleton] at hem
        subst hem
        exact ⟨rfl, Iff.rfl⟩

/-! ## Invariants of the session store -/

theorem setLives_lives (st : GameState) (key : PlayerKey) (v : Int) :
    (st.setLives key v).lives key = v := by
  cases key <;> rfl

/-- Every entry of the store after one event is an old entry, a freshly created
session, or an old session after the gameplay event. -/
theorem step_games_mem (s : ServerState) (e : Event) (x : GameId × Game)
    (hx : x ∈ (step s e).1.games) :
    x ∈ s.games ∨ (∃ (gid : GameId) (p1 p2 : Player), x.2 = newGame gid p1 p2) ∨
      ∃ y ∈ s.games, x.2 = gameAfter y.2 e := by
  cases e with
  | findMatch sock pd now =>
    cases hw : s.waitingPlayer with
    | none =>
      left
      simpa [step, findMatch_of_none s sock pd now hw] using hx
    | some w =>
      by_cases hne : w.id = sock
      · subst hne
        left
        simpa [step, findMatch_of_self s w pd now hw] using hx
      · simp only [step, findMatch_of_other s w sock pd now hw hne] at hx
        rcases mem_mapSet _ _ _ _ hx with h | h
        · exact Or.inl h
        · exact Or.inr (Or.inl ⟨_, _, _, by rw [h]⟩)
  | cancelMatchmaking sock =>
    left
    simp only [step, cancelMatchmaking] at hx
    split at hx
    · exact hx
    · split at hx <;> exact hx
  | disconnect sock =>
    left
    simp only [step, disconnect, List.mem_filter] at hx
    exact hx.1
  | updatePosition sock gid px py velX anim =>
    cases hget : mapGet s.games gid with
    | none =>
      left
      simpa [step, updatePosition, hget] using hx
    | some game =>
      simp only [step, updatePosition_of_game s sock gid game px py velX anim hget] at hx
      rcases mem_mapSet _ _ _ _ hx with h | h
      · exact Or.inl h
      · exact Or.inr (Or.inr ⟨(gid, game), mapGet_mem _ _ _ hget, by rw [h]; rfl⟩)
  | collectStar sock gid i playerX r1 r2 =>
    cases hget : mapGet s.games gid with
    | none =>
      left
      simpa [step, collectStar, hget] using hx
    | some game =>
      by_cases hdone : (arraySet game.state.stars i false).filter truthy = []
      · simp only [step, collectStar_of_complete s sock gid game i playerX r1 r2 hget hdone] at hx
        rcases mem_mapSet _ _ _ _ hx with h | h
        · exact Or.inl h
        · refine Or.inr (Or.inr ⟨(gid, game), mapGet_mem _ _ _ hget, ?_⟩)
          rw [h]
          simp [gameAfter, hdone]
      · simp only [step, collectStar_of_remaining s sock gid game i playerX r1 r2 hget hdone] at hx
        rcases mem_mapSet _ _ _ _ hx with h | h
        · exact Or.inl h
        · refine Or.inr (Or.inr ⟨(gid, game), mapGet_mem _ _ _ hget, ?_⟩)
          rw [h]
          simp [gameAfter, hdone]
  | hitBomb sock gid bombIndex =>
    cases hget : mapGet s.games gid with
    | none =>
      left
      simpa [step, hitBomb, hget] using hx
    | some game =>
      simp only [step, hitBomb_of_game s sock gid game bombIndex _ _ hget rfl rfl,
        setLives_lives] at hx
      by_cases hle : game.state.lives (playerKeyOf game sock) - 1 ≤ 0
      · simp only [hle, if_true] at hx
        rcases mem_mapSet _ _ _ _ hx with h | h
        · exact Or.inl h
        · refine Or.inr (Or.inr ⟨(gid, game), mapGet_mem _ _ _ hget, ?_⟩)
          rw [h]
          simp [gameAfter, hle]
      · simp only [hle, if_false] at hx
        rcases mem_mapSet _ _ _ _ hx with h | h
        · exact Or.inl h
        · refine Or.inr (Or.inr ⟨(gid, game), mapGet_mem _ _ _ hget, ?_⟩)
          rw [h]
          simp [gameAfter, hle]

/-- A property of session records that holds of a fresh session and survives
the gameplay events satisfying `ok` holds of every session after any sequence
of events satisfying `ok`. -/
theorem run_games_inv (P : Game → Prop) (ok : Event → Prop)
    (hnew : ∀ (gid : GameId) (p1 p2 : Player), P (newGame gid p1 p2))
    (hafter : ∀ (game : Game) (e : Event), ok e → P game → P (gameAfter game e))
    (events : List Event) :
    ∀ s : ServerState, (∀ e ∈ events, ok e) → (∀ x ∈ s.games, P x.2) →
      ∀ x ∈ (run s events).1.games, P x.2 := by
  induction events with
  | nil => intro s _ hinv; simpa [run_nil] using hinv
  | cons e rest ih =>
    intro s hok hinv
    rw [run_cons]
    apply ih _ (fun e2 he2 => hok e2 (List.mem_cons_of_mem _ he2))
    intro x hx
    rcases step_games_mem s e x hx with h | ⟨gid, p1, p2, h⟩ | ⟨y, hy, h⟩
    · exact hinv x h
    · rw [h]; exact hnew gid p1 p2
    · rw [h]; exact hafter y.2 e (hok e (List.mem_cons_self _ _)) (hinv y hy)

/-! ## The collectibles list -/

/-- C13, refuted as stated.  After the pairing of `a` and `b`, a `collect-star`
from `a` with index 12 writes `stars[12] = false` (line 131): the collectibles
list of the live session `game_5` has 13 slots. -/
theorem collect_index_twelve_grows_list :
    Reachable (run ServerState.init collectTwelve).1 ∧
    (mapGet (run ServerState.init collectTwelve).1.games "game_5").map
      (fun g => g.state.stars) = some (List.replicate 12 (some true) ++ [some false]) ∧
    (mapGet (run ServerState.init collectTwelve).1.games "game_5").map
      (fun g => g.state.stars.length) = some 13 := by
  exact ⟨⟨collectTwelve, rfl⟩, by decide, by decide⟩

theorem mapSet_same {β : Type} (m : List (String × β)) (k : String) (v : β)
    (hget : mapGet m k = some v) : mapSet m k v = m := by
  induction m with
  | nil => simp [mapGet] at hget
  | cons e rest ih =>
    obtain ⟨k1, v1⟩ := e
    by_cases h : k1 = k
    · simp only [mapGet, h, if_true, Option.some.injEq] at hget
      simp [mapSet, h, hget]
    · simp only [mapGet, h, if_false] at hget
      simp [mapSet, h, ih hget]

theorem arraySet_same (a : List (Option Bool)) (i : Nat) (v : Bool)
    (hi : a[i]? = some (some v)) : arraySet a i v = a := by
  have hlt : i < a.length := by
    by_contra hge
    rw [List.getElem?_eq_none (Nat.le_of_not_lt hge)] at hi
    exact absurd hi (by simp)
  simp only [arraySet, hlt, if_true]
  apply List.ext_getElem?
  intro j
  rw [List.getElem?_set]
  by_cases hij : i = j
  · subst hij
    simp [hlt, hi]
  · simp [hij]

theorem gameAfter_some_star (game : Game) (e : Event)
    (hstar : game.state.stars.filter truthy ≠ []) :
    (gameAfter game e).state.stars.filter truthy ≠ [] := by
  cases e with
  | findMatch sock pd now => exact hstar
  | cancelMatchmaking sock => exact hstar
  | disconnect sock => exact hstar
  | updatePosition sock gid x y velX anim =>
    simp only [gameAfter]
    cases playerKeyOf game sock <;> exact hstar
  | hitBomb sock gid bombIndex =>
    simp only [gameAfter]
    split <;> cases playerKeyOf game sock <;> exact hstar
  | collectStar sock gid i playerX r1 r2 =>
    simp only [gameAfter]
    split
    · simp only
      decide
    · rename_i hleft
      simp only
      intro hnil
      exact hleft (by rw [hnil]; rfl)

/-- In every reachable state every live session has at least one collectible
whose flag is true. -/
theorem reachable_some_star (s : ServerState) (hreach : Reachable s) (gid : GameId)
    (game : Game) (hget : mapGet s.games gid = some game) :
    game.state.stars.filter truthy ≠ [] := by
  obtain ⟨events, rfl⟩ := hreach
  have hinv := run_games_inv (fun g => g.state.stars.filter truthy ≠ []) (fun _ => True)
    (by intro gid p1 p2; simp only [newGame]; decide)
    (fun g e _ h => gameAfter_some_star g e h)
    events ServerState.init (fun _ _ => trivial) (by simp [ServerState.init])
  exact hinv (gid, game) (mapGet_mem _ _ _ hget)

/-- C19: for every session of a reachable state and every index (in
particular every index in 0..11) whose flag is already false, a `collect-star`
for that index leaves the session state, and the whole server state,
unchanged and triggers no level completion: the only emission is the
`star-collected` broadcast for that index. -/
theorem collectStar_cleared_flag (s : ServerState) (hreach : Reachable s) (sock : SocketId)
    (gid : GameId) (game : Game) (i : Nat) (playerX : Int) (r1 r2 : Draw)
    (hget : mapGet s.games gid = some game)
    (hfalse : game.state.stars[i]? = some (some false)) :
    (step s (Event.collectStar sock gid i playerX r1 r2)).1 = s ∧
    mapGet (step s (Event.collectStar sock gid i playerX r1 r2)).1.games gid = some game ∧
    (step s (Event.collectStar sock gid i playerX r1 r2)).2 =
      [ { recipients := ioTo s.rooms gid, msg := Msg.starCollected i } ] := by
  have hsame := arraySet_same game.state.stars i false hfalse
  have hstar := reachable_some_star s hreach gid game hget
  have hleft : (arraySet game.state.stars i false).filter truthy ≠ [] := by
    rw [hsame]; exact hstar
  have hstep : (step s (Event.collectStar sock gid i playerX r1 r2)).1 = s := by
    simp only [step, collectStar_of_remaining s sock gid game i playerX r1 r2 hget hleft, hsame]
    have : mapSet s.games gid { game with state := { game.state with stars := game.state.stars } } =
        s.games := mapSet_same s.games gid game hget
    rw [this]
  refine ⟨hstep, by rw [hstep]; exact hget, ?_⟩
  simp only [step, collectStar_of_remaining s sock gid game i playerX r1 r2 hget hleft]

theorem collectStar_cleared_flag_witness :
    Reachable (run ServerState.init [Event.findMatch "c" carol 5, Event.findMatch "d" dave 5,
        Event.collectStar "c" "game_5" 11 100 drawMax drawHalf]).1 ∧
    mapGet (run ServerState.init [Event.findMatch "c" carol 5, Event.findMatch "d" dave 5,
        Event.collectStar "c" "game_5" 11 100 drawMax drawHalf]).1.games "game_5" =
      some { carolDaveGame with
        state := { carolDaveGame.state with
          stars := List.replicate 11 (some true) ++ [some false] } } ∧
    (List.replicate 11 (some true) ++ [some false])[11]? = some (some false) ∧
    (step (run ServerState.init [Event.findMatch "c" carol 5, Event.findMatch "d" dave 5,
        Event.collectStar "c" "game_5" 11 100 drawMax drawHalf]).1
      (Event.collectStar "d" "game_5" 11 700 drawHalf drawMax)).2 =
      [ { recipients := ["c", "d"], msg := Msg.starCollected 11 } ] :=
  ⟨⟨_, rfl⟩, by decide, by decide,
    (collectStar_cleared_flag _ ⟨_, rfl⟩ "d" "game_5"
      { carolDaveGame with
        state := { carolDaveGame.state with
          stars := List.replicate 11 (some true) ++ [some false] } }
      11 700 drawHalf drawMax (by decide) (by decide)).2.2⟩

/-! ## Twelve collects in order -/

theorem mapSet_mapSet {β : Type} (m : List (String × β)) (k : String) (v w : β) :
    mapSet (mapSet m k v) k w = mapSet m k w := by
  induction m with
  | nil => simp [mapSet]
  | cons e rest ih =>
    obtain ⟨k1, v1⟩ := e
    by_cases h : k1 = k
    · simp [mapSet, h]
    · simp [mapSet, h, ih]

theorem arraySet_collected (k : Nat) (hk : k < 12) :
    arraySet (List.replicate k (some false) ++ List.replicate (12 - k) (some true)) k false =
      List.replicate (k + 1) (some false) ++ List.replicate (12 - (k + 1)) (some true) := by
  interval_cases k <;> decide

theorem collected_some_left (k : Nat) (hk : k < 12) :
    (List.replicate k (some false) ++ List.replicate (12 - k) (some true)).filter truthy ≠ [] := by
  interval_cases k <;> decide

theorem collectsInOrder_succ (gid : GameId) (sender : Nat → SocketId) (playerX : Nat → Int)
    (r1 r2 : Nat → Draw) (n : Nat) :
    collectsInOrder gid sender playerX r1 r2 (n + 1) =
      collectsInOrder gid sender playerX r1 r2 n ++
        [Event.collectStar (sender n) gid n (playerX n) (r1 n) (r2 n)] := by
  simp [collectsInOrder, List.range_succ]

/-- State and emissions after the collects for the indices 0, ..., k-1 of a
fresh session, for `k` up to 11. -/
theorem run_collectsInOrder (s : ServerState) (gid : GameId) (p1 p2 : Player)
    (sender : Nat → SocketId) (playerX : Nat → Int) (r1 r2 : Nat → Draw)
    (hget : mapGet s.games gid = some (newGame gid p1 p2)) :
    ∀ k : Nat, k ≤ 11 →
      run s (collectsInOrder gid sender playerX r1 r2 k) =
        ({ s with games := mapSet s.games gid (collectedUpTo gid p1 p2 k) },
          (List.range k).map fun i =>
            { recipients := ioTo s.rooms gid, msg := Msg.starCollected i }) := by
  intro k
  induction k with
  | zero =>
    intro _
    have hsame : mapSet s.games gid (collectedUpTo gid p1 p2 0) = s.games :=
      mapSet_same s.games gid _ hget
    simp [collectsInOrder, run_nil, hsame]
  | succ k ih =>
    intro hk
    have hprev := ih (by omega)
    have hgetk : mapGet ({ s with games := mapSet s.games gid (collectedUpTo gid p1 p2 k) } :
        ServerState).games gid = some (collectedUpTo gid p1 p2 k) := mapGet_mapSet_self _ _ _
    have hleft : (arraySet (collectedUpTo gid p1 p2 k).state.stars k false).filter truthy ≠ [] := by
      simp only [collectedUpTo]
      rw [arraySet_collected k (by omega)]
      exact collected_some_left (k + 1) (by omega)
    have hstep := collectStar_of_remaining _ (sender k) gid _ k (playerX k) (r1 k) (r2 k)
      hgetk hleft
    rw [collectsInOrder_succ, run_append, hprev, run_cons, run_nil]
    simp only [step, hstep, mapSet_mapSet, List.range_succ, List.map_append, List.map_cons,
      List.map_nil, List.append_nil]
    have hgame : ({ collectedUpTo gid p1 p2 k with
        state := { (collectedUpTo gid p1 p2 k).state with
          stars := arraySet (collectedUpTo gid p1 p2 k).state.stars k false } } : Game) =
        collectedUpTo gid p1 p2 (k + 1) := by
      simp only [collectedUpTo]
      rw [arraySet_collected k (by omega)]
    rw [hgame]

/-- C18: in a freshly created session, the 12 `collect-star` events for the
indices 0, 1, ..., 11 in that order behave as follows.  After each of the
first 11 (every prefix of length `k <= 11`) the emissions so far are the
`star-collected` broadcasts for the indices 0, ..., k-1, `currentLevel` is 0 and
the bomb list is empty.  The 12th adds a `level-complete` broadcast with
`newLevel = 1`; afterwards all 12 collectibles are true, the level is 1 and the
bomb list has exactly one element. -/
theorem twelve_collects_complete_level (s : ServerState) (gid : GameId) (p1 p2 : Player)
    (sender : Nat → SocketId) (playerX : Nat → Int) (r1 r2 : Nat → Draw)
    (hget : mapGet s.games gid = some (newGame gid p1 p2)) :
    (∀ k : Nat, k ≤ 11 →
      (run s (collectsInOrder gid sender playerX r1 r2 k)).2 =
        ((List.range k).map fun i =>
          ({ recipients := ioTo s.rooms gid, msg := Msg.starCollected i } : Emit)) ∧
      ∃ g : Game,
        mapGet (run s (collectsInOrder gid sender playerX r1 r2 k)).1.games gid = some g ∧
        g.state.currentLevel = 0 ∧ g.state.bombs = []) ∧
    (run s (collectsInOrder gid sender playerX r1 r2 12)).2 =
      ((List.range 11).map fun i =>
        ({ recipients := ioTo s.rooms gid, msg := Msg.starCollected i } : Emit)) ++
      [ { recipients := ioTo s.rooms gid
          msg := Msg.levelComplete 1 [spawnBomb (playerX 11) (r1 11) (r2 11)] } ] ∧
    ∃ g : Game,
      mapGet (run s (collectsInOrder gid sender playerX r1 r2 12)).1.games gid = some g ∧
      g.state.currentLevel = 1 ∧
      g.state.stars = List.replicate 12 (some true) ∧
      g.state.bombs.length = 1 := by
  have hfirst := run_collectsInOrder s gid p1 p2 sender playerX r1 r2 hget
  refine ⟨?_, ?_⟩
  · intro k hk
    rw [hfirst k hk]
    exact ⟨rfl, _, mapGet_mapSet_self _ _ _, rfl, rfl⟩
  · have hget11 : mapGet ({ s with games := mapSet s.games gid (collectedUpTo gid p1 p2 11) } :
        ServerState).games gid = some (collectedUpTo gid p1 p2 11) := mapGet_mapSet_self _ _ _
    have hdone : (arraySet (collectedUpTo gid p1 p2 11).state.stars 11 false).filter truthy =
        [] := by
      simp only [collectedUpTo]
      decide
    have hstep := collectStar_of_complete _ (sender 11) gid _ 11 (playerX 11) (r1 11) (r2 11)
      hget11 hdone
    rw [collectsInOrder_succ, run_append, hfirst 11 (Nat.le_refl _), run_cons, run_nil]
    simp only [step, hstep, List.append_nil]
    exact ⟨rfl, _, mapGet_mapSet_self _ _ _, rfl, rfl, rfl⟩

theorem twelve_collects_complete_level_witness :
    mapGet carolDaveMatched.games "game_5" =
      some (newGame "game_5" (playerOf "c" carol) (playerOf "d" dave)) ∧
    (run carolDaveMatched (collectsInOrder "game_5" (fun _ => "c") (fun _ => 100)
        (fun _ => drawMax) (fun _ => drawHalf) 12)).2 =
      ((List.range 11).map fun i =>
        ({ recipients := ioTo carolDaveMatched.rooms "game_5"
           msg := Msg.starCollected i } : Emit)) ++
      [ { recipients := ioTo carolDaveMatched.rooms "game_5"
          msg := Msg.levelComplete 1 [spawnBomb 100 drawMax drawHalf] } ] ∧
    ∃ g : Game,
      mapGet (run carolDaveMatched (collectsInOrder "game_5" (fun _ => "c") (fun _ => 100)
        (fun _ => drawMax) (fun _ => drawHalf) 12)).1.games "game_5" = some g ∧
      g.state.currentLevel = 1 ∧
      g.state.stars = List.replicate 12 (some true) ∧
      g.state.bombs.length = 1 :=
  ⟨by decide,
    (twelve_collects_complete_level carolDaveMatched "game_5" (playerOf "c" carol)
      (playerOf "d" dave) (fun _ => "c") (fun _ => 100) (fun _ => drawMax) (fun _ => drawHalf)
      (by decide)).2⟩

/-! ## The waiting entry and the participants of sessions -/

theorem step_gameplay_unknown (s : ServerState) (e : Event) (gid : GameId)
    (hgid : e.gameId? = some gid) (hget : mapGet s.games gid = none) :
    step s e = (s, []) := by
  cases e with
  | findMatch sock pd now => simp [Event.gameId?] at hgid
  | cancelMatchmaking sock => simp [Event.gameId?] at hgid
  | disconnect sock => simp [Event.gameId?] at hgid
  | updatePosition sock g x y velX anim =>
    simp only [Event.gameId?, Option.some.injEq] at hgid
    subst hgid
    simp only [step, updatePosition, hget]
  | collectStar sock g i playerX r1 r2 =>
    simp only [Event.gameId?, Option.some.injEq] at hgid
    subst hgid
    simp only [step, collectStar, hget]
  | hitBomb sock g bombIndex =>
    simp only [Event.gameId?, Option.some.injEq] at hgid
    subst hgid
    simp only [step, hitBomb, hget]

/-- A gameplay event that names a live session rewrites that entry of the
store and nothing else of the server state. -/
theorem step_gameplay_known (s : ServerState) (e : Event) (gid : GameId) (game : Game)
    (hgid : e.gameId? = some gid) (hget : mapGet s.games gid = some game) :
    (step s e).1 = { s with games := mapSet s.games gid (gameAfter game e) } := by
  cases e with
  | findMatch sock pd now => simp [Event.gameId?] at hgid
  | cancelMatchmaking sock => simp [Event.gameId?] at hgid
  | disconnect sock => simp [Event.gameId?] at hgid
  | updatePosition sock g x y velX anim =>
    simp only [Event.gameId?, Option.some.injEq] at hgid
    subst hgid
    simp only [step, updatePosition_of_game s sock g game x y velX anim hget, gameAfter]
  | collectStar sock g i playerX r1 r2 =>
    simp only [Event.gameId?, Option.some.injEq] at hgid
    subst hgid
    by_cases hdone : (arraySet game.state.stars i false).filter truthy = []
    · simp [step, collectStar_of_complete s sock g game i playerX r1 r2 hget hdone, gameAfter,
        hdone]
    · simp [step, collectStar_of_remaining s sock g game i playerX r1 r2 hget hdone, gameAfter,
        hdone]
  | hitBomb sock g bombIndex =>
    simp only [Event.gameId?, Option.some.injEq] at hgid
    subst hgid
    simp only [step, hitBomb_of_game s sock g game bombIndex _ _ hget rfl rfl, setLives_lives,
      gameAfter]
    split <;> rfl

theorem gameAfter_players (game : Game) (e : Event) :
    (gameAfter game e).id = game.id ∧
    (gameAfter game e).player1 = game.player1 ∧
    (gameAfter game e).player2 = game.player2 := by
  cases e with
  | findMatch sock pd now => exact ⟨rfl, rfl, rfl⟩
  | cancelMatchmaking sock => exact ⟨rfl, rfl, rfl⟩
  | disconnect sock => exact ⟨rfl, rfl, rfl⟩
  | updatePosition sock gid x y velX anim => exact ⟨rfl, rfl, rfl⟩
  | collectStar sock gid i playerX r1 r2 =>
    simp only [gameAfter]
    split <;> exact ⟨rfl, rfl, rfl⟩
  | hitBomb sock gid bombIndex =>
    simp only [gameAfter]
    split <;> exact ⟨rfl, rfl, rfl⟩

theorem involves_gameAfter (sock : SocketId) (game : Game) (e : Event) :
    involves sock (gameAfter game e) = involves sock game := by
  obtain ⟨_, h1, h2⟩ := gameAfter_players game e
  simp [involves, h1, h2]

theorem inSomeGame_false (s : ServerState) (sock : SocketId)
    (h : inSomeGame s sock = false) : ∀ x ∈ s.games, involves sock x.2 = false := by
  intro x hx
  simp only [inSomeGame, List.any_eq_false] at h
  simpa using h x hx

/-- One event keeps the waiting entry out of every session, provided the event
is not a `find-match` from a participant of a live session. -/
theorem step_waiting_outside (s : ServerState) (e : Event)
    (hinv : ∀ w : Player, s.waitingPlayer = some w → ∀ x ∈ s.games, involves w.id x.2 = false)
    (hok : ∀ (sock : SocketId) (pd : PlayerData) (now : Nat),
      e = Event.findMatch sock pd now → inSomeGame s sock = false) :
    ∀ w : Player, (step s e).1.waitingPlayer = some w →
      ∀ x ∈ (step s e).1.games, involves w.id x.2 = false := by
  cases hgid : e.gameId? with
  | some gid =>
    cases hget : mapGet s.games gid with
    | none =>
      rw [step_gameplay_unknown s e gid hgid hget]
      exact hinv
    | some game =>
      rw [step_gameplay_known s e gid game hgid hget]
      intro w hw x hx
      rcases mem_mapSet _ _ _ _ hx with h | h
      · exact hinv w hw x h
      · rw [h]
        simp only [involves_gameAfter]
        exact hinv w hw (gid, game) (mapGet_mem _ _ _ hget)
  | none =>
    cases e with
    | updatePosition sock g x y velX anim => simp [Event.gameId?] at hgid
    | collectStar sock g i playerX r1 r2 => simp [Event.gameId?] at hgid
    | hitBomb sock g bombIndex => simp [Event.gameId?] at hgid
    | findMatch sock pd now =>
      have hout := inSomeGame_false s sock (hok sock pd now rfl)
      cases hw : s.waitingPlayer with
      | none =>
        simp only [step, findMatch_of_none s sock pd now hw]
        intro w hw2 x hx
        simp only [Option.some.injEq] at hw2
        subst hw2
        exact hout x hx
      | some w0 =>
        by_cases hne : w0.id = sock
        · subst hne
          simp only [step, findMatch_of_self s w0 pd now hw]
          intro w hw2 x hx
          simp only [Option.some.injEq] at hw2
          subst hw2
          exact hout x hx
        · simp only [step, findMatch_of_other s w0 sock pd now hw hne]
          intro w hw2
          simp at hw2
    | cancelMatchmaking sock =>
      intro w hw x hx
      simp only [step, cancelMatchmaking] at hw hx
      cases hw0 : s.waitingPlayer with
      | none => simp [hw0] at hw
      | some w0 =>
        simp only [hw0] at hw hx
        by_cases hid : w0.id = sock
        · simp [hid] at hw
        · simp only [hid, if_false] at hw hx
          exact hinv w hw x hx
    | disconnect sock =>
      intro w hw x hx
      simp only [step, disconnect, List.mem_filter] at hw hx
      cases hw0 : s.waitingPlayer with
      | none => simp [hw0] at hw
      | some w0 =>
        simp only [hw0] at hw
        by_cases hid : w0.id = sock
        · simp [hid] at hw
        · simp only [hid, if_false, Option.some.injEq] at hw
          subst hw
          exact hinv w0 hw0 x hx.1

theorem run_waiting_outside (events : List Event) :
    ∀ s : ServerState,
      (∀ w : Player, s.waitingPlayer = some w → ∀ x ∈ s.games, involves w.id x.2 = false) →
      seeksOutsideGames s events = true →
      ∀ w : Player, (run s events).1.waitingPlayer = some w →
        ∀ x ∈ (run s events).1.games, involves w.id x.2 = false := by
  induction events with
  | nil => intro s hinv _; simpa [run_nil] using hinv
  | cons e rest ih =>
    intro s hinv hok
    simp only [seeksOutsideGames, Bool.and_eq_true] at hok
    rw [run_cons]
    apply ih _ _ hok.2
    apply step_waiting_outside s e hinv
    intro sock pd now he
    subst he
    simpa using hok.1

/-- C15, refuted as stated.  After the pairing of `a` and `b` in `game_5`,
socket `a` sends `find-match` again: line 27 only compares with the waiting
entry, so `a` becomes the waiting entry while it is `player1` of the live
session `game_5`. -/
theorem participant_becomes_waiting :
    Reachable (run ServerState.init seekWhilePlaying).1 ∧
    (run ServerState.init seekWhilePlaying).1.waitingPlayer = some (playerOf "a" alice) ∧
    mapGet (run ServerState.init seekWhilePlaying).1.games "game_5" =
      some (newGame "game_5" (playerOf "a" alice) (playerOf "b" bob)) ∧
    (newGame "game_5" (playerOf "a" alice) (playerOf "b" bob)).player1.id =
      (playerOf "a" alice).id := by
  exact ⟨⟨seekWhilePlaying, rfl⟩, by decide, by decide, rfl⟩

/-- C15, amended: in every state reachable from the empty server state by a
sequence of inbound events in which no `find-match` arrives from a connection
that is at that moment a participant of a live session, a waiting entry, if
present, has a connection id different from the ids of both participants of
every live session. -/
theorem waiting_outside_sessions (events : List Event)
    (hok : seeksOutsideGames ServerState.init events = true)
    (w : Player) (hw : (run ServerState.init events).1.waitingPlayer = some w)
    (gid : GameId) (game : Game)
    (hlive : mapGet (run ServerState.init events).1.games gid = some game) :
    game.player1.id ≠ w.id ∧ game.player2.id ≠ w.id := by
  have h := run_waiting_outside events ServerState.init
    (by intro w hw; simp [ServerState.init] at hw) hok w hw (gid, game) (mapGet_mem _ _ _ hlive)
  simpa [involves] using h

theorem waiting_outside_sessions_witness :
    seeksOutsideGames ServerState.init seekBesideGame = true ∧
    (run ServerState.init seekBesideGame).1.waitingPlayer = some (playerOf "c" carol) ∧
    mapGet (run ServerState.init seekBesideGame).1.games "game_5" =
      some (newGame "game_5" (playerOf "a" alice) (playerOf "b" bob)) ∧
    (newGame "game_5" (playerOf "a" alice) (playerOf "b" bob)).player1.id ≠
      (playerOf "c" carol).id ∧
    (newGame "game_5" (playerOf "a" alice) (playerOf "b" bob)).player2.id ≠
      (playerOf "c" carol).id :=
  ⟨by decide, by decide, by decide,
    waiting_outside_sessions seekBesideGame (by decide) (playerOf "c" carol) (by decide)
      "game_5" (newGame "game_5" (playerOf "a" alice) (playerOf "b" bob)) (by decide)⟩

/-! ## Session identifiers -/

/-- A pairing whose identifier is not yet a key of the store appends the new
session and leaves every live session as it was. -/
theorem findMatch_pair_of_fresh_id (s : ServerState) (w : Player) (sock : SocketId)
    (pd : PlayerData) (now : Nat) (hwait : s.waitingPlayer = some w) (hne : w.id ≠ sock)
    (hfresh : mapGet s.games (gameIdOf now) = none) :
    (findMatch s sock pd now).1.games =
      s.games ++ [(gameIdOf now, newGame (gameIdOf now) w (playerOf sock pd))] ∧
    (findMatch s sock pd now).1.games.length = s.games.length + 1 ∧
    ∀ (k : GameId) (g : Game), mapGet s.games k = some g →
      mapGet (findMatch s sock pd now).1.games k = some g := by
  rw [findMatch_of_other s w sock pd now hwait hne]
  refine ⟨mapSet_of_absent _ _ _ hfresh, mapSet_length_of_absent _ _ _ hfresh, ?_⟩
  intro k g hk
  have hkne : k ≠ gameIdOf now := by
    intro h
    rw [h, hfresh] at hk
    exact absurd hk (by simp)
  simp only
  rw [mapGet_mapSet_ne _ _ _ _ hkne]
  exact hk

/-- C14, evaluated where it fails.  Sockets `c` and `d` play in the live
session `game_7` (`c` has lost a life) and socket `x` is waiting.  Socket `y`
seeks while `Date.now()` reads 7 again: line 29 builds the id `game_7`, and
`games.set` puts the new session of `x` and `y` in the place of the live
session of `c` and `d`.  The live session is not left unchanged and the number
of sessions does not grow. -/
theorem pairing_reuses_live_id :
    aliceWaitingBesideGame.waitingPlayer = some (playerOf "x" alice) ∧
    mapGet aliceWaitingBesideGame.games "game_7" = some carolDaveAfterHit ∧
    gameIdOf 7 = "game_7" ∧
    mapGet (step aliceWaitingBesideGame (Event.findMatch "y" bob 7)).1.games "game_7" =
      some (newGame "game_7" (playerOf "x" alice) (playerOf "y" bob)) ∧
    (step aliceWaitingBesideGame (Event.findMatch "y" bob 7)).1.games.length =
      aliceWaitingBesideGame.games.length := by
  decide

/-! ## Disconnection -/

theorem roomMembers_leaveAll (rooms : List (GameId × List SocketId)) (sock : SocketId)
    (room : GameId) :
    roomMembers (leaveAll rooms sock) room =
      (roomMembers rooms room).filter fun m => decide (m ≠ sock) := by
  induction rooms with
  | nil => simp [roomMembers, leaveAll, mapGet]
  | cons e rest ih =>
    obtain ⟨k1, ms⟩ := e
    by_cases h : k1 = room
    · simp [roomMembers, leaveAll, mapGet, h]
    · simp only [roomMembers, leaveAll, mapGet, List.map_cons, h, if_false] at ih ⊢
      exact ih

/-- What `disconnect` does to the store and to the waiting entry, and how many
notifications it emits. -/
theorem disconnect_store (s : ServerState) (c : SocketId) :
    (disconnect s c).1.games = s.games.filter (fun e => !involves c e.2) ∧
    (disconnect s c).2 =
      (s.games.filter fun e => involves c e.2).map (fun e =>
        { recipients := socketTo (leaveAll s.rooms c) c e.1
          msg := Msg.opponentDisconnected
            (if e.2.player1.id = c then "player2" else "player1") }) ∧
    ((∃ w : Player, s.waitingPlayer = some w ∧ w.id = c) →
      (disconnect s c).1.waitingPlayer = none) ∧
    ((¬ ∃ w : Player, s.waitingPlayer = some w ∧ w.id = c) →
      (disconnect s c).1.waitingPlayer = s.waitingPlayer) := by
  refine ⟨rfl, rfl, ?_, ?_⟩
  · rintro ⟨w, hw, hid⟩
    simp [disconnect, hw, hid]
  · intro hnot
    cases hw : s.waitingPlayer with
    | none => simp [disconnect, hw]
    | some w =>
      have hid : ¬ w.id = c := fun h => hnot ⟨w, hw, h⟩
      simp [disconnect, hw, hid]

/-- A socket that is in no session and is not waiting disconnects without any
effect on the waiting entry or the store, and nothing is emitted. -/
theorem disconnect_of_stranger (s : ServerState) (c : SocketId)
    (hout : inSomeGame s c = false)
    (hwait : ∀ w : Player, s.waitingPlayer = some w → w.id ≠ c) :
    (disconnect s c).1.waitingPlayer = s.waitingPlayer ∧
    (disconnect s c).1.games = s.games ∧
    (disconnect s c).2 = [] := by
  have hall := inSomeGame_false s c hout
  have hnone : (s.games.filter fun e => involves c e.2) = [] := by
    rw [List.filter_eq_nil_iff]
    intro x hx
    simp [hall x hx]
  have hkeep : (s.games.filter fun e => !involves c e.2) = s.games := by
    rw [List.filter_eq_self]
    intro x hx
    simp [hall x hx]
  refine ⟨?_, ?_, ?_⟩
  · cases hw : s.waitingPlayer with
    | none => simp [disconnect, hw]
    | some w => simp [disconnect, hw, hwait w hw]
  · simp only [disconnect, hkeep]
  · simp only [disconnect, hnone, List.map_nil]

/-- When the room of a session holds its two participants and nobody else, the
notification of a disconnecting participant reaches the other participant
alone. -/
theorem disconnect_recipient_of_room (s : ServerState) (c : SocketId) (gid : GameId)
    (game : Game) (key : PlayerKey) (hdistinct : game.player1.id ≠ game.player2.id)
    (hsender : (game.player key).id = c)
    (hroom : roomMembers s.rooms gid = [game.player1.id, game.player2.id]) :
    socketTo (leaveAll s.rooms c) c gid = [(game.player key.other).id] := by
  subst hsender
  simp only [socketTo, roomMembers_leaveAll, hroom]
  cases key with
  | player1 => simp [Game.player, PlayerKey.other, List.filter, Ne.symm hdistinct]
  | player2 => simp [Game.player, PlayerKey.other, List.filter, hdistinct]

/-- C12, evaluated where it fails.  Two pairings happened while the clock read
5, so the session `game_5` is that of `a` and `b` while the room `game_5` still
holds `c` and `d` as well.  When `a` disconnects, the session is deleted and one
`opponent-disconnected` is emitted with `socket.to("game_5")`: it reaches `c`,
`d` and `b`, not the other participant `b` alone. -/
theorem disconnect_notifies_whole_room :
    twoPairsOneId.games =
      [("game_5", newGame "game_5" (playerOf "a" alice) (playerOf "b" bob))] ∧
    roomMembers twoPairsOneId.rooms "game_5" = ["c", "d", "a", "b"] ∧
    (step twoPairsOneId (Event.disconnect "a")).1.games = [] ∧
    (step twoPairsOneId (Event.disconnect "a")).2 =
      [ { recipients := ["c", "d", "b"], msg := Msg.opponentDisconnected "player2" } ] := by
  decide

/-! ## The length of the collectibles list -/

theorem arraySet_length_of_within (a : List (Option Bool)) (i : Nat) (v : Bool)
    (hi : i < a.length ∨ 4294967295 ≤ i) : (arraySet a i v).length = a.length := by
  rcases hi with h | h
  · simp [arraySet, h]
  · by_cases hlt : i < a.length
    · simp [arraySet, hlt]
    · have hbig : ¬ i < 4294967295 := by omega
      simp [arraySet, hlt, hbig]

theorem gameAfter_stars_length (game : Game) (e : Event) (hok : growsStars e = false)
    (hlen : game.state.stars.length = 12) : (gameAfter game e).state.stars.length = 12 := by
  cases e with
  | findMatch sock pd now => exact hlen
  | cancelMatchmaking sock => exact hlen
  | disconnect sock => exact hlen
  | updatePosition sock gid x y velX anim =>
    simp only [gameAfter]
    cases playerKeyOf game sock <;> exact hlen
  | hitBomb sock gid bombIndex =>
    simp only [gameAfter]
    split <;> cases playerKeyOf game sock <;> exact hlen
  | collectStar sock gid i playerX r1 r2 =>
    simp only [growsStars, Bool.and_eq_false_iff, decide_eq_false_iff_not] at hok
    simp only [gameAfter]
    split
    · simp
    · simp only
      rw [arraySet_length_of_within _ _ _ (by omega)]
      exact hlen

theorem gameAfter_of_other (game : Game) (e : Event) (hgid : e.gameId? = none) :
    gameAfter game e = game := by
  cases e with
  | findMatch sock pd now => rfl
  | cancelMatchmaking sock => rfl
  | disconnect sock => rfl
  | updatePosition sock gid x y velX anim => simp [Event.gameId?] at hgid
  | collectStar sock gid i playerX r1 r2 => simp [Event.gameId?] at hgid
  | hitBomb sock gid bombIndex => simp [Event.gameId?] at hgid

/-- One event keeps every collectibles list at 12 slots, unless it is a
`collect-star` with an index from 12 to 4294967294 for a live session. -/
theorem step_stars_length (s : ServerState) (e : Event)
    (hinv : ∀ x ∈ s.games, x.2.state.stars.length = 12)
    (hok : (growsStars e && targetsLive s e) = false) :
    ∀ x ∈ (step s e).1.games, x.2.state.stars.length = 12 := by
  cases hgid : e.gameId? with
  | some gid =>
    cases hget : mapGet s.games gid with
    | none =>
      rw [step_gameplay_unknown s e gid hgid hget]
      exact hinv
    | some game =>
      have hgrow : growsStars e = false := by
        simpa [targetsLive, hgid, hget] using hok
      rw [step_gameplay_known s e gid game hgid hget]
      intro x hx
      rcases mem_mapSet _ _ _ _ hx with h | h
      · exact hinv x h
      · rw [h]
        exact gameAfter_stars_length game e hgrow (hinv (gid, game) (mapGet_mem _ _ _ hget))
  | none =>
    intro x hx
    rcases step_games_mem s e x hx with h | ⟨gid, p1, p2, h⟩ | ⟨y, hy, h⟩
    · exact hinv x h
    · rw [h]; simp [newGame]
    · rw [h, gameAfter_of_other y.2 e hgid]
      exact hinv y hy

theorem run_stars_length (events : List Event) :
    ∀ s : ServerState, (∀ x ∈ s.games, x.2.state.stars.length = 12) →
      collectsWithinSlots s events = true →
      ∀ x ∈ (run s events).1.games, x.2.state.stars.length = 12 := by
  induction events with
  | nil => intro s hinv _; simpa [run_nil] using hinv
  | cons e rest ih =>
    intro s hinv hok
    simp only [collectsWithinSlots, Bool.and_eq_true, Bool.not_eq_true'] at hok
    rw [run_cons]
    exact ih _ (step_stars_length s e hinv hok.1) hok.2

/-- The events left out by `collectsWithinSlots` do lengthen the list: on a live
session with 12 slots of which one is true, a `collect-star` with an index `i`
from 12 to 4294967294 leaves a list of `i + 1` slots. -/
theorem collect_beyond_slots_grows (s : ServerState) (sock : SocketId) (gid : GameId)
    (game : Game) (i : Nat) (playerX : Int) (r1 r2 : Draw)
    (hget : mapGet s.games gid = some game)
    (hlen : game.state.stars.length = 12)
    (hstar : game.state.stars.filter truthy ≠ [])
    (hlow : 12 ≤ i) (hhigh : i < 4294967295) :
    ∃ g2 : Game,
      mapGet (step s (Event.collectStar sock gid i playerX r1 r2)).1.games gid = some g2 ∧
      g2.state.stars.length = i + 1 := by
  have hnot : ¬ i < game.state.stars.length := by omega
  have hset : arraySet game.state.stars i false =
      game.state.stars ++ List.replicate (i - game.state.stars.length) none ++ [some false] := by
    simp [arraySet, hnot, hhigh]
  have hleft : (arraySet game.state.stars i false).filter truthy ≠ [] := by
    rw [hset]
    simp only [List.filter_append]
    intro hnil
    simp only [List.append_eq_nil] at hnil
    exact hstar hnil.1.1
  simp only [step, collectStar_of_remaining s sock gid game i playerX r1 r2 hget hleft]
  refine ⟨_, mapGet_mapSet_self _ _ _, ?_⟩
  simp only [hset, List.length_append, List.length_replicate, List.length_singleton]
  omega

/-- C13, amended: in every state reachable from the empty server state by a
sequence of inbound events in which no `collect-star` with an index from 12 to
4294967294 arrives for a session that is live at that moment, the collectibles
list of every live session has exactly 12 slots. -/
theorem stars_length_twelve_within_slots (events : List Event)
    (hok : collectsWithinSlots ServerState.init events = true)
    (gid : GameId) (game : Game)
    (hlive : mapGet (run ServerState.init events).1.games gid = some game) :
    game.state.stars.length = 12 := by
  have hinv := run_stars_length events ServerState.init (by simp [ServerState.init]) hok
  exact hinv (gid, game) (mapGet_mem _ _ _ hlive)

theorem stars_length_twelve_within_slots_witness :
    collectsWithinSlots ServerState.init collectsAroundSlots = true ∧
    mapGet (run ServerState.init collectsAroundSlots).1.games "game_5" =
      some { carolDaveGame with
        state := { carolDaveGame.state with
          stars := List.replicate 11 (some true) ++ [some false] } } ∧
    (List.replicate 11 (some true) ++ [some false]).length = 12 :=
  ⟨by decide, by decide,
    stars_length_twelve_within_slots collectsAroundSlots (by decide) "game_5"
      { carolDaveGame with
        state := { carolDaveGame.state with
          stars := List.replicate 11 (some true) ++ [some false] } } (by decide)⟩

/-! ## Position updates in a shared room -/

/-- C17, evaluated where it fails.  Two pairings happened while the clock read
5, so the session `game_5` is that of `a` and `b` while the room `game_5` still
holds `c` and `d` as well.  An `update-position` from `a` is relayed with
`socket.to("game_5")` (line 118): the `opponent-update` reaches `c`, `d` and
`b`, not the other member `b` of the session alone. -/
theorem update_position_reaches_whole_room :
    twoPairsOneId.games =
      [("game_5", newGame "game_5" (playerOf "a" alice) (playerOf "b" bob))] ∧
    roomMembers twoPairsOneId.rooms "game_5" = ["c", "d", "a", "b"] ∧
    (step twoPairsOneId (Event.updatePosition "a" "game_5" 120 450 160 "right")).2 =
      [ { recipients := ["c", "d", "b"], msg := Msg.opponentUpdate 120 450 160 "right" } ] := by
  decide

end BombGo
